import Mathlib

/-!
# System-information CLI: formatter, dispatcher, disk listing and CPU poller

A shallow embedding of `src/cli-graph.go` (flag-driven `sysinfo` binary) and
`src/cli.go` (subcommand-driven `mytool` binary).

* Machine integers are `Nat`/`Int`; the one signed 64-bit accumulator of
  `formatBytes` wraps explicitly through `wrapInt64`.
* `float64` values are exact dyadic rationals; conversions and divisions round
  to a 53-bit significand, ties to even.  The exponent range is not modelled:
  every computed value is a quotient of integers of magnitude at most `2^64`.
* Terminal output and calls to the metrics provider are recorded in a trace of
  `Event`s; a run-time panic is the `fault` of a `Run`, and ends it.
* The libraries are parameters: the gopsutil queries can fail and can return any
  value of their type, and `asciigraph.Plot` can panic.
-/

set_option maxRecDepth 100000

namespace SysInfo

/-! ## Numbers and their rendering -/

/-- The constant `unit` of `formatBytes`. -/
def unit : Nat := 1024

/-- Two's-complement wrap of an integer into the `int64` range. -/
def wrapInt64 (x : Int) : Int :=
  (x + 9223372036854775808) % 18446744073709551616 - 9223372036854775808

/-- Number of binary digits of `n`, by repeated halving (`fuel` bounds the depth). -/
def bitLenAux : Nat → Nat → Nat
  | 0, _ => 0
  | fuel + 1, n => if n = 0 then 0 else bitLenAux fuel (n / 2) + 1

/-- Number of binary digits of `n` (`0` for `0`). -/
def bitLen (n : Nat) : Nat := bitLenAux n n

/-- Rounding of the scaled quotient `q` (with `sticky ≠ 0` when a non-zero
fraction was cut off below it) to 53 significant bits, ties to even. Meant for
`q ≥ 2 ^ 54`, which `roundToBinary64` guarantees. -/
def roundSignificand (q sticky : Nat) : Nat :=
  let s := bitLen q - 53
  let top := q / 2 ^ s
  let rem := q % 2 ^ s
  let half := 2 ^ (s - 1)
  let up : Bool :=
    decide (rem > half) || (decide (rem = half) && (decide (sticky ≠ 0) || decide (top % 2 = 1)))
  (if up then top + 1 else top) * 2 ^ s

/-- Nearest value with a 53-bit significand to the rational `num / den`, ties to
even. The result `(m, k)` stands for `m / 2 ^ k`. -/
def roundToBinary64 (num den : Nat) : Nat × Nat :=
  if num = 0 ∨ den = 0 then (0, 0)
  else
    let k := bitLen den + 54
    (roundSignificand (num * 2 ^ k / den) (num * 2 ^ k % den), k)

/-- A `float64` value: a finite one is `± num / 2 ^ scale`. -/
inductive F64 where
  | finite (neg : Bool) (num scale : Nat)
  | inf (neg : Bool)
  | nan
deriving DecidableEq

/-- Conversion `float64(x)` of an unsigned integer. -/
def F64.ofNat (n : Nat) : F64 :=
  let r := roundToBinary64 n 1
  .finite false r.1 r.2

/-- Conversion `float64(x)` of a signed integer. -/
def F64.ofInt (i : Int) : F64 :=
  let r := roundToBinary64 i.natAbs 1
  .finite (decide (i < 0)) r.1 r.2

/-- Division of two `float64` values. -/
def F64.div : F64 → F64 → F64
  | .nan, _ => .nan
  | _, .nan => .nan
  | .inf _, .inf _ => .nan
  | .inf a, .finite b _ _ => .inf (a != b)
  | .finite a _ _, .inf b => .finite (a != b) 0 0
  | .finite a n s, .finite b n' s' =>
    if n' = 0 then (if n = 0 then .nan else .inf (a != b))
    else
      let r := roundToBinary64 (n * 2 ^ s') (n' * 2 ^ s)
      .finite (a != b) r.1 r.2

/-- The integer nearest to `num / den`, ties to even. -/
def roundHalfEven (num den : Nat) : Nat :=
  let q := num / den
  let r := num % den
  if 2 * r > den ∨ (2 * r = den ∧ q % 2 = 1) then q + 1 else q

/-- The decimal digits of `n`, left-padded with zeros to `width` characters. -/
def padZeros (width n : Nat) : String :=
  String.mk (List.replicate (width - (toString n).length) '0') ++ toString n

/-- Magnitude `num / 2 ^ scale` printed with `prec` fractional digits. -/
def fixedDigits (prec num scale : Nat) : String :=
  let t := roundHalfEven (num * 10 ^ prec) (2 ^ scale)
  if prec = 0 then toString t
  else toString (t / 10 ^ prec) ++ "." ++ padZeros prec (t % 10 ^ prec)

/-- The verb `%.{prec}f` of `fmt` applied to a `float64`. -/
def sprintfFixed (prec : Nat) : F64 → String
  | .nan => "NaN"
  | .inf false => "+Inf"
  | .inf true => "-Inf"
  | .finite neg num scale => (if neg then "-" else "") ++ fixedDigits prec num scale

/-! ## `formatBytes` (cli-graph.go) -/

/-- The variables of the loop of `formatBytes`: the counter `n`, the `int64`
accumulator `div` and the index `exp`. -/
structure LoopState where
  n : Nat
  div : Int
  exp : Nat
deriving DecidableEq

/-- One iteration: body `div *= unit; exp++` followed by the post statement `n /= unit`. -/
def loopBody (s : LoopState) : LoopState :=
  { n := s.n / unit, div := wrapInt64 (s.div * unit), exp := s.exp + 1 }

/-- The loop `for n := ...; n >= unit; n /= unit { div *= unit; exp++ }`,
returning the state at exit; `none` when `fuel` iterations were not enough. -/
def formatBytesLoop : Nat → LoopState → Option LoopState
  | 0, _ => none
  | fuel + 1, s => if s.n ≥ unit then formatBytesLoop fuel (loopBody s) else some s

/-- The states at which the loop condition is evaluated, in order. -/
def loopStates : Nat → LoopState → List LoopState
  | 0, _ => []
  | fuel + 1, s => s :: (if s.n ≥ unit then loopStates fuel (loopBody s) else [])

/-- The state before the first test of the loop condition. -/
def loopInit (bytes : Nat) : LoopState := { n := bytes / unit, div := unit, exp := 0 }

/-- The byte-indexing expression `"KMGTPE"[exp]`; `none` is the index-out-of-range panic. -/
def unitChar (exp : Nat) : Option Char := "KMGTPE".toList[exp]?

/-- The function `formatBytes`; `none` is a run-time panic (or exhausted fuel).
The loop is given `bytes` iterations of fuel. -/
def formatBytes (bytes : Nat) : Option String :=
  if bytes < unit then some (toString bytes ++ " B")
  else
    match formatBytesLoop bytes (loopInit bytes) with
    | none => none
    | some s =>
      match unitChar s.exp with
      | none => none
      | some c =>
        some (sprintfFixed 1 (F64.div (F64.ofNat bytes) (F64.ofInt s.div))
          ++ " " ++ String.singleton c ++ "B")

/-! ## Metrics provider, terminal events and runs -/

/-- The value `disk.PartitionStat`; the program reads only the mount point. -/
structure PartitionStat where
  mountpoint : String
deriving DecidableEq

/-- The fields of `disk.UsageStat` that the program reads (`uint64` byte counts). -/
structure UsageStat where
  total : Nat
  free : Nat
  used : Nat
  usedPercent : F64
deriving DecidableEq

/-- The fields of `mem.VirtualMemoryStat` that the program reads (`uint64` byte counts). -/
structure VirtualMemoryStat where
  total : Nat
  free : Nat
  used : Nat
  usedPercent : F64
deriving DecidableEq

/-- The external collaborators: the gopsutil queries and `asciigraph.Plot`. An error
is the text of its `Error()`. `cpuPercent` and `diskUsage` take, first, the number of
earlier calls of the same query in the run, so that every assignment of successes and
failures to the calls is a value of this type. `plot data height` is
`asciigraph.Plot(data, asciigraph.Height(height))`; `none` is a panic inside the
library, as on an empty series. -/
structure Externals where
  cpuPercent : Nat → Nat → Bool → Except String (List F64)
  virtualMemory : Except String VirtualMemoryStat
  partitions : Bool → Except String (List PartitionStat)
  diskUsage : Nat → String → Except String UsageStat
  plot : List F64 → Nat → Option String

/-- Byte counts delivered by the provider fit their `uint64` fields. -/
def Externals.WellTyped (E : Externals) : Prop :=
  (∀ m, E.virtualMemory = .ok m → m.used < 2 ^ 64 ∧ m.total < 2 ^ 64) ∧
  (∀ i path u, E.diskUsage i path = .ok u → u.used < 2 ^ 64 ∧ u.total < 2 ^ 64)

/-- The colours of package `color` that the program uses. -/
inductive ColorAttr where
  | cyan
  | green
  | yellow
  | red
deriving DecidableEq

/-- What a run does that is visible outside: queries to the provider and writes to
standard output (`print` through `fmt`, `colorPrint` through package `color`). -/
inductive Event where
  | cpuPercent (interval : Nat) (percpu : Bool)
  | virtualMemory
  | partitions (all : Bool)
  | diskUsage (path : String)
  | print (text : String)
  | colorPrint (attr : ColorAttr) (text : String)
deriving DecidableEq

/-- An event is a query to the metrics provider. -/
def Event.isQuery : Event → Bool
  | .cpuPercent _ _ => true
  | .virtualMemory => true
  | .partitions _ => true
  | .diskUsage _ => true
  | _ => false

/-- An event writes to standard output. -/
def Event.isOutput : Event → Bool
  | .print _ => true
  | .colorPrint _ _ => true
  | _ => false

/-- The queries of a trace, in order. -/
def queries (t : List Event) : List Event := t.filter Event.isQuery

/-- The writes of a trace, in order. -/
def outputs (t : List Event) : List Event := t.filter Event.isOutput

/-- The run-time panics of the program: an index expression out of range, and a
panic raised inside `asciigraph.Plot`. -/
inductive Fault where
  | indexOutOfRange
  | plotPanic
deriving DecidableEq

/-- The events of a piece of code and the panic that ended it, if one did. -/
structure Run where
  trace : List Event
  fault : Option Fault
deriving DecidableEq

/-- A piece of code that performs the given events and returns. -/
def Run.emit (es : List Event) : Run := { trace := es, fault := none }

/-- Sequential composition: the second part runs only if the first did not panic. -/
def Run.andThen (r k : Run) : Run :=
  if r.fault = none then { trace := r.trace ++ k.trace, fault := k.fault } else r

/-- The duration `time.Second`, in nanoseconds. -/
def second : Nat := 1000000000

/-! ## cli-graph.go -/

/-- The first two statements of `displayGraph`: the title, and the line of
`extraInfo[0]` and `extraInfo[1]` when `extraInfo` is not empty. -/
def displayGraphHead (title color : String) (extraInfo : List String) : Run :=
  let heading := Event.print ("\n" ++ color ++ title ++ "\x1b[0m\n")
  if extraInfo.length > 0 then
    match extraInfo[0]?, extraInfo[1]? with
    | some used, some total =>
      Run.emit [heading, Event.print ("Used: " ++ used ++ ", Total: " ++ total ++ "\n")]
    | _, _ => { trace := [heading], fault := some .indexOutOfRange }
  else Run.emit [heading]

/-- The last two statements of `displayGraph`: the call of `asciigraph.Plot` with
height 10 and the print of its result. -/
def displayGraphPlot (plot : List F64 → Nat → Option String) (data : List F64) : Run :=
  match plot data 10 with
  | some graph => Run.emit [Event.print ("\x1b[92m" ++ graph ++ "\x1b[0m\n")]
  | none => { trace := [], fault := some .plotPanic }

/-- The function `displayGraph`; `extraInfo` is the variadic parameter. -/
def displayGraph (plot : List F64 → Nat → Option String) (title : String) (data : List F64)
    (color : String) (extraInfo : List String) : Run :=
  (displayGraphHead title color extraInfo).andThen (displayGraphPlot plot data)

/-- The function `displayCPUInfo`. -/
def displayCPUInfo (E : Externals) : Run :=
  match E.cpuPercent 0 second true with
  | .error err =>
    Run.emit [.cpuPercent second true, .print ("Error fetching CPU usage: " ++ err ++ "\n")]
  | .ok cpuUsage =>
    (Run.emit [.cpuPercent second true]).andThen
      (displayGraph E.plot "CPU Usage" cpuUsage "\x1b[1;34m" [])

/-- The call of `displayGraph` with the two `formatBytes` arguments, evaluated first;
a panic in either leaves nothing printed. -/
def displayUsageGraph (plot : List F64 → Nat → Option String) (title : String)
    (usedPercent : F64) (color : String) (used total : Nat) : Run :=
  match formatBytes used, formatBytes total with
  | some u, some t => displayGraph plot title [usedPercent] color [u, t]
  | _, _ => { trace := [], fault := some .indexOutOfRange }

/-- The function `displayMemoryInfo`. -/
def displayMemoryInfo (E : Externals) : Run :=
  match E.virtualMemory with
  | .error err =>
    Run.emit [.virtualMemory, .print ("Error fetching memory usage: " ++ err ++ "\n")]
  | .ok memUsage =>
    (Run.emit [.virtualMemory]).andThen
      (displayUsageGraph E.plot "Memory Usage" memUsage.usedPercent "\x1b[1;32m"
        memUsage.used memUsage.total)

/-- The body of the loop of `displayDiskInfo` for the `i`-th partition. -/
def displayDiskInfoBody (E : Externals) (i : Nat) (partition : PartitionStat) : Run :=
  match E.diskUsage i partition.mountpoint with
  | .error err =>
    Run.emit [.diskUsage partition.mountpoint,
      .print ("Error fetching disk usage for " ++ partition.mountpoint ++ ": " ++ err ++ "\n")]
  | .ok usage =>
    (Run.emit [.diskUsage partition.mountpoint]).andThen
      (displayUsageGraph E.plot ("Disk Usage (" ++ partition.mountpoint ++ ")")
        usage.usedPercent "\x1b[1;31m" usage.used usage.total)

/-- The loop `for _, partition := range partitions` of `displayDiskInfo`, from the
`i`-th partition on. -/
def displayDiskInfoLoop (E : Externals) : Nat → List PartitionStat → Run
  | _, [] => Run.emit []
  | i, partition :: rest =>
    (displayDiskInfoBody E i partition).andThen (displayDiskInfoLoop E (i + 1) rest)

/-- The function `displayDiskInfo`. -/
def displayDiskInfo (E : Externals) : Run :=
  match E.partitions true with
  | .error err =>
    Run.emit [.partitions true, .print ("Error fetching disk partitions: " ++ err ++ "\n")]
  | .ok partitions =>
    (Run.emit [.partitions true]).andThen (displayDiskInfoLoop E 0 partitions)

/-- The guidance message of the dispatcher. -/
def invalidOption : String := "Invalid option. Please use \x27cpu\x27, \x27memory\x27, or \x27disk\x27.\n"

/-- The function `displaySystemInfo`; `selectedInfo` is the value of the flag `info`. -/
def displaySystemInfo (E : Externals) (selectedInfo : String) : Run :=
  if selectedInfo = "cpu" then displayCPUInfo E
  else if selectedInfo = "memory" then displayMemoryInfo E
  else if selectedInfo = "disk" then displayDiskInfo E
  else Run.emit [.print invalidOption]

/-! ## cli.go -/

/-- The expression `float64(x)/1024/1024/1024`. -/
def gigabytes (x : Nat) : F64 :=
  F64.div (F64.div (F64.div (F64.ofNat x) (F64.ofNat 1024)) (F64.ofNat 1024)) (F64.ofNat 1024)

/-- The function `getCpuUsage`, as the `i`-th query of the run. -/
def getCpuUsage (E : Externals) (i : Nat) : Run :=
  match E.cpuPercent i 0 false with
  | .error err =>
    Run.emit [.cpuPercent 0 false, .print ("Error getting CPU usage: " ++ err ++ "\n")]
  | .ok cpuInfo =>
    match cpuInfo[0]? with
    | none => { trace := [.cpuPercent 0 false], fault := some .indexOutOfRange }
    | some v =>
      Run.emit [.cpuPercent 0 false,
        .colorPrint .cyan ("CPU Usage: " ++ sprintfFixed 2 v ++ "%\n")]

/-- The function `getMemoryUsage`. -/
def getMemoryUsage (E : Externals) : Run :=
  match E.virtualMemory with
  | .error err =>
    Run.emit [.virtualMemory, .print ("Error getting memory usage: " ++ err ++ "\n")]
  | .ok memoryInfo =>
    Run.emit [.virtualMemory,
      .colorPrint .green ("Total Memory: " ++ sprintfFixed 2 (gigabytes memoryInfo.total) ++ " GB\n"),
      .colorPrint .yellow ("Free Memory: " ++ sprintfFixed 2 (gigabytes memoryInfo.free) ++ " GB\n"),
      .colorPrint .red ("Used Memory: " ++ sprintfFixed 2 (gigabytes memoryInfo.used) ++ " GB\n")]

/-- The body of the loop of `getDiskSpace` for the `i`-th partition. -/
def getDiskSpaceBody (E : Externals) (i : Nat) (partition : PartitionStat) : Run :=
  match E.diskUsage i partition.mountpoint with
  | .error err =>
    Run.emit [.diskUsage partition.mountpoint,
      .print ("Error getting disk space usage: " ++ err ++ "\n")]
  | .ok usage =>
    Run.emit [.diskUsage partition.mountpoint,
      .print ("Disk: " ++ partition.mountpoint ++ "\n"),
      .colorPrint .cyan ("Total Space: " ++ sprintfFixed 2 (gigabytes usage.total) ++ " GB\n"),
      .colorPrint .green ("Free Space: " ++ sprintfFixed 2 (gigabytes usage.free) ++ " GB\n"),
      .colorPrint .red ("Used Space: " ++ sprintfFixed 2 (gigabytes usage.used) ++ " GB\n"),
      .print "\n"]

/-- The loop `for _, partition := range partitions` of `getDiskSpace`, from the `i`-th
partition on. -/
def getDiskSpaceLoop (E : Externals) : Nat → List PartitionStat → Run
  | _, [] => Run.emit []
  | i, partition :: rest =>
    (getDiskSpaceBody E i partition).andThen (getDiskSpaceLoop E (i + 1) rest)

/-- The function `getDiskSpace`. -/
def getDiskSpace (E : Externals) : Run :=
  match E.partitions true with
  | .error err =>
    Run.emit [.partitions true, .print ("Error getting disk partitions: " ++ err ++ "\n")]
  | .ok partitions =>
    (Run.emit [.partitions true]).andThen (getDiskSpaceLoop E 0 partitions)

/-! ## The CPU watcher of cli.go -/

/-- The poller of `runCpuUsage`: `idle` before the subcommand starts, `running` while
the goroutine loops on its `select`, `stopped` once it has returned or the process
has ended. -/
inductive Phase where
  | idle
  | running
  | stopped
deriving DecidableEq

/-- What the environment delivers while `runCpuUsage` is blocked on `<-stopChan` and
afterwards: `tick`, the `select` of the goroutine receives from `ticker.C` and the
call of `getCpuUsage` runs to its end; `signal`, `stopChan` receives SIGINT or SIGTERM
and the main goroutine executes `close(done)` and returns; `done`, the `select` of the
goroutine receives from the closed channel `done`; `cutTick`, the `select` receives
from `ticker.C` after the main goroutine has returned, and the process exits when
`getCpuUsage` has made its query and not yet its write (nothing waits for the
goroutine). -/
inductive Input where
  | tick
  | signal
  | done
  | cutTick
deriving DecidableEq

/-- The state of a run of `runCpuUsage`: the phase of the poller, whether `done` has
been closed, the number of `cpu.Percent` calls made, the events so far, and the panic
that ended the process, if one did. -/
structure WatchState where
  phase : Phase
  doneClosed : Bool
  calls : Nat
  trace : List Event
  fault : Option Fault
deriving DecidableEq

/-- The entry of `runCpuUsage` up to the blocking receive `<-stopChan`: the channels
and the ticker are created, the goroutine is started and the prompt is printed. -/
def watchStart : WatchState :=
  { phase := .running, doneClosed := false, calls := 0,
    trace := [.print "Press Ctrl+C to exit...\n"], fault := none }

/-- One reaction of `runCpuUsage` to an input. A `tick` while the goroutine loops is
the case `<-ticker.C`, one call of `getCpuUsage`, whose panic ends the process; `done`
is the case `<-done`, enabled only once the channel is closed, as is `cutTick`. -/
def watchStep (E : Externals) (s : WatchState) : Input → WatchState
  | .tick =>
    if s.phase = .running ∧ s.fault = none then
      let r := getCpuUsage E s.calls
      { s with phase := if r.fault = none then .running else .stopped,
               calls := s.calls + 1, trace := s.trace ++ r.trace, fault := r.fault }
    else s
  | .signal => if s.fault = none then { s with doneClosed := true } else s
  | .done =>
    if s.phase = .running ∧ s.doneClosed = true ∧ s.fault = none then
      { s with phase := .stopped }
    else s
  | .cutTick =>
    if s.phase = .running ∧ s.doneClosed = true ∧ s.fault = none then
      { s with phase := .stopped, calls := s.calls + 1,
               trace := s.trace ++ [.cpuPercent 0 false] }
    else s

/-- The function `runCpuUsage` under a sequence of inputs. -/
def runCpuUsage (E : Externals) (inputs : List Input) : WatchState :=
  inputs.foldl (watchStep E) watchStart

/-! ## Sample providers -/

/-- A value of `float64` is an infinity. -/
def F64.isInf : F64 → Bool
  | .inf _ => true
  | _ => false

/-- A stand-in for `asciigraph.Plot` in the sample providers: it panics on an empty
series and on a series that holds an infinity, two inputs on which the library
panics, and returns a text otherwise. -/
def samplePlot (data : List F64) (_height : Nat) : Option String :=
  if data.isEmpty || data.any F64.isInf then none else some "graph"

/-- A provider with two partitions: the usage query of the first succeeds, every later
usage query fails; CPU queries succeed at even calls and fail at odd ones. -/
def mixedExternals : Externals :=
  { cpuPercent := fun i _ _ => if i % 2 = 0 then .ok [.finite false 25 1] else .error "no data"
    virtualMemory := .ok { total := 17179869184, free := 3221225472, used := 8589934592,
                           usedPercent := .finite false 50 0 }
    partitions := fun _ => .ok [{ mountpoint := "/" }, { mountpoint := "/mnt" }]
    diskUsage := fun i _ =>
      if i = 0 then .ok { total := 500107862016, free := 100000000000, used := 400107862016,
                          usedPercent := .finite false 80 0 }
      else .error "permission denied"
    plot := samplePlot }

/-- A provider with one partition, whose usage query fails. -/
def unreadableExternals : Externals :=
  { cpuPercent := fun _ _ _ => .ok [.finite false 25 1]
    virtualMemory := .error "no data"
    partitions := fun _ => .ok [{ mountpoint := "/mnt" }]
    diskUsage := fun _ _ => .error "permission denied"
    plot := samplePlot }

/-- A provider whose CPU query succeeds with an empty slice, and whose two partitions
report an infinite percentage. -/
def degenerateExternals : Externals :=
  { cpuPercent := fun _ _ _ => .ok []
    virtualMemory := .ok { total := 0, free := 0, used := 0, usedPercent := .inf false }
    partitions := fun _ => .ok [{ mountpoint := "/a" }, { mountpoint := "/b" }]
    diskUsage := fun _ _ => .ok { total := 2048, free := 1024, used := 1024,
                                  usedPercent := .inf false }
    plot := samplePlot }

/-- Invariant of the loop of `formatBytes b`: `div = 1024 ^ (exp + 1) ≤ b` and
`n = b / div`. -/
def LoopInv (b : Nat) (s : LoopState) : Prop :=
  s.div = ((1024 ^ (s.exp + 1) : Nat) : Int) ∧ s.n = b / 1024 ^ (s.exp + 1) ∧
    1024 ^ (s.exp + 1) ≤ b

/-! ## Bit length and rounding to a 53-bit significand -/

theorem wrapInt64_of_range (x : Int) (h0 : 0 ≤ x) (h1 : x < 9223372036854775808) :
    wrapInt64 x = x := by
  unfold wrapInt64
  omega

theorem bitLenAux_spec : ∀ (fuel n : Nat), n ≤ fuel →
    n < 2 ^ bitLenAux fuel n ∧ (n ≠ 0 → 2 ^ (bitLenAux fuel n - 1) ≤ n) := by
  intro fuel
  induction fuel with
  | zero =>
    intro n hn
    have : n = 0 := by omega
    subst this
    simp [bitLenAux]
  | succ fuel ih =>
    intro n hn
    by_cases h0 : n = 0
    · subst h0
      simp [bitLenAux]
    · have hle : n / 2 ≤ fuel := by omega
      obtain ⟨hlt, hge⟩ := ih (n / 2) hle
      simp only [bitLenAux, h0, if_false, Nat.add_sub_cancel]
      refine ⟨?_, fun _ => ?_⟩
      · rw [pow_succ]
        omega
      · by_cases h2 : n / 2 = 0
        · have h1 : n = 1 := by omega
          subst h1
          simp [h2] at hlt ⊢
          cases fuel <;> simp [bitLenAux]
        · have hB : bitLenAux fuel (n / 2) ≠ 0 := by
            intro hB
            rw [hB] at hlt
            simp at hlt
            exact h2 hlt
          have := hge h2
          obtain ⟨B, hBeq⟩ := Nat.exists_eq_succ_of_ne_zero hB
          rw [hBeq] at this ⊢
          simp only [Nat.succ_eq_add_one, Nat.add_sub_cancel] at this
          rw [pow_succ]
          omega

theorem lt_two_pow_bitLen (n : Nat) : n < 2 ^ bitLen n :=
  (bitLenAux_spec n n (Nat.le_refl n)).1

theorem two_pow_bitLen_le (n : Nat) (h : n ≠ 0) : 2 ^ (bitLen n - 1) ≤ n :=
  (bitLenAux_spec n n (Nat.le_refl n)).2 h

theorem bitLen_le_of_lt (n a : Nat) (h : n < 2 ^ a) : bitLen n ≤ a := by
  by_cases h0 : n = 0
  · subst h0
    cases a <;> simp [bitLen, bitLenAux]
  · by_contra hc
    have h1 := two_pow_bitLen_le n h0
    have h2 : 2 ^ a ≤ 2 ^ (bitLen n - 1) := Nat.pow_le_pow_right (by norm_num) (by omega)
    omega

theorem lt_bitLen_of_le (n a : Nat) (h : 2 ^ a ≤ n) : a < bitLen n := by
  by_contra hc
  have h1 := lt_two_pow_bitLen n
  have h2 : 2 ^ bitLen n ≤ 2 ^ a := Nat.pow_le_pow_right (by norm_num) (by omega)
  omega

theorem roundSignificand_ge (q sticky c : Nat) (hc : 53 ≤ c) (h : 2 ^ c ≤ q) :
    2 ^ c ≤ roundSignificand q sticky := by
  have hL : c < bitLen q := lt_bitLen_of_le q c h
  have hq0 : q ≠ 0 := by
    have : 0 < 2 ^ c := Nat.two_pow_pos _
    omega
  have hlow := two_pow_bitLen_le q hq0
  have hsplit : 2 ^ (bitLen q - 1) = 2 ^ 52 * 2 ^ (bitLen q - 53) := by
    rw [← pow_add]
    congr 1
    omega
  have htop : 2 ^ 52 ≤ q / 2 ^ (bitLen q - 53) := by
    rw [Nat.le_div_iff_mul_le (Nat.two_pow_pos _)]
    rw [← hsplit]
    exact hlow
  have hmono : 2 ^ c ≤ 2 ^ (bitLen q - 1) := Nat.pow_le_pow_right (by norm_num) (by omega)
  have hbase : 2 ^ c ≤ q / 2 ^ (bitLen q - 53) * 2 ^ (bitLen q - 53) := by
    calc 2 ^ c ≤ 2 ^ (bitLen q - 1) := hmono
      _ = 2 ^ 52 * 2 ^ (bitLen q - 53) := hsplit
      _ ≤ q / 2 ^ (bitLen q - 53) * 2 ^ (bitLen q - 53) := Nat.mul_le_mul_right _ htop
  unfold roundSignificand
  simp only
  split
  · calc 2 ^ c ≤ q / 2 ^ (bitLen q - 53) * 2 ^ (bitLen q - 53) := hbase
      _ ≤ (q / 2 ^ (bitLen q - 53) + 1) * 2 ^ (bitLen q - 53) :=
        Nat.mul_le_mul_right _ (Nat.le_succ _)
  · exact hbase

theorem roundSignificand_le (q sticky c : Nat) (hc : 54 ≤ c) (h : q ≤ 2 ^ c) :
    roundSignificand q sticky ≤ 2 ^ c := by
  rcases Nat.lt_or_ge q (2 ^ c) with hlt | hge
  · have hL : bitLen q ≤ c := bitLen_le_of_lt q c hlt
    have hqlt := lt_two_pow_bitLen q
    have hmono : 2 ^ bitLen q ≤ 2 ^ c := Nat.pow_le_pow_right (by norm_num) hL
    rcases Nat.lt_or_ge (bitLen q) 53 with hs | hs
    · have hs0 : bitLen q - 53 = 0 := by omega
      unfold roundSignificand
      simp [hs0, Nat.mod_one]
      omega
    · have hsplit : 2 ^ bitLen q = 2 ^ 53 * 2 ^ (bitLen q - 53) := by
        rw [← pow_add]
        congr 1
        omega
      have htop : q / 2 ^ (bitLen q - 53) < 2 ^ 53 := by
        rw [Nat.div_lt_iff_lt_mul (Nat.two_pow_pos _)]
        rw [← hsplit]
        exact hqlt
      have hup : (q / 2 ^ (bitLen q - 53) + 1) * 2 ^ (bitLen q - 53) ≤ 2 ^ c := by
        calc (q / 2 ^ (bitLen q - 53) + 1) * 2 ^ (bitLen q - 53)
            ≤ 2 ^ 53 * 2 ^ (bitLen q - 53) := Nat.mul_le_mul_right _ htop
          _ = 2 ^ bitLen q := hsplit.symm
          _ ≤ 2 ^ c := hmono
      unfold roundSignificand
      simp only
      split
      · exact hup
      · exact le_trans (Nat.mul_le_mul_right _ (Nat.le_succ _)) hup
  · have hq : q = 2 ^ c := le_antisymm h hge
    have hL : bitLen q = c + 1 := by
      have h1 : c < bitLen q := lt_bitLen_of_le q c hge
      have h2 : bitLen q ≤ c + 1 := bitLen_le_of_lt q (c + 1) (by
        rw [hq]
        exact Nat.pow_lt_pow_right (by norm_num) (by omega))
      omega
    have hs : bitLen q - 53 = (c - 53) + 1 := by omega
    have hdvd : 2 ^ (c - 53 + 1) ∣ q := by
      rw [hq]
      exact pow_dvd_pow 2 (by omega)
    have hrem : q % 2 ^ (c - 53 + 1) = 0 := Nat.mod_eq_zero_of_dvd hdvd
    have hhalf : 0 < 2 ^ (c - 53) := Nat.two_pow_pos _
    unfold roundSignificand
    simp only [hs, hrem, Nat.add_sub_cancel]
    have hne : ¬ (0 = 2 ^ (c - 53)) := by omega
    have hngt : ¬ (0 > 2 ^ (c - 53)) := by omega
    simp only [hne, hngt, decide_False, Bool.false_and, Bool.or_false, Bool.false_eq_true,
      if_false]
    rw [Nat.div_mul_cancel hdvd]
    exact h

theorem roundToBinary64_snd (num den : Nat) (hn : num ≠ 0) (hd : den ≠ 0) :
    (roundToBinary64 num den).2 = bitLen den + 54 := by
  simp [roundToBinary64, hn, hd]

theorem roundToBinary64_ge (num den a : Nat) (hd : den ≠ 0) (h : 2 ^ a * den ≤ num) :
    2 ^ a * 2 ^ (roundToBinary64 num den).2 ≤ (roundToBinary64 num den).1 := by
  have hn : num ≠ 0 := by
    have : 0 < 2 ^ a * den := Nat.mul_pos (Nat.two_pow_pos _) (Nat.pos_of_ne_zero hd)
    omega
  simp only [roundToBinary64, hn, hd, or_self, if_false]
  rw [← pow_add]
  apply roundSignificand_ge _ _ _ (by omega)
  rw [Nat.le_div_iff_mul_le (Nat.pos_of_ne_zero hd), pow_add]
  calc 2 ^ a * 2 ^ (bitLen den + 54) * den = (2 ^ a * den) * 2 ^ (bitLen den + 54) := by ring
    _ ≤ num * 2 ^ (bitLen den + 54) := Nat.mul_le_mul_right _ h

theorem roundToBinary64_le (num den b : Nat) (hn : num ≠ 0) (hd : den ≠ 0)
    (h : num ≤ 2 ^ b * den) :
    (roundToBinary64 num den).1 ≤ 2 ^ b * 2 ^ (roundToBinary64 num den).2 := by
  simp only [roundToBinary64, hn, hd, or_self, if_false]
  rw [← pow_add]
  apply roundSignificand_le _ _ _ (by omega)
  apply Nat.div_le_of_le_mul
  have e : den * 2 ^ (b + (bitLen den + 54)) = (2 ^ b * den) * 2 ^ (bitLen den + 54) := by
    rw [pow_add]
    ring
  rw [e]
  exact Nat.mul_le_mul_right _ h

/-! ## The loop of `formatBytes` -/

theorem pow1024_le_of_lt (j b : Nat) (hb : b < 2 ^ 64) (h : 1024 ^ j ≤ b) : j ≤ 6 := by
  by_contra hc
  have h7 : 1024 ^ 7 ≤ 1024 ^ j := Nat.pow_le_pow_right (by norm_num) (by omega)
  norm_num at h7 hb
  omega

theorem pow1024_le_two_pow_60 (j : Nat) (h : j ≤ 6) : 1024 ^ j ≤ 1152921504606846976 := by
  have : 1024 ^ j ≤ 1024 ^ 6 := Nat.pow_le_pow_right (by norm_num) h
  norm_num at this
  exact this

theorem loopInv_init (b : Nat) (h : 1024 ≤ b) : LoopInv b (loopInit b) := by
  refine ⟨?_, ?_, ?_⟩ <;> simp [loopInit, unit, h]

theorem loopInv_body (b : Nat) (hb : b < 2 ^ 64) (s : LoopState) (hs : LoopInv b s)
    (hn : s.n ≥ unit) :
    LoopInv b (loopBody s) ∧ wrapInt64 (s.div * unit) = s.div * unit ∧
      s.div * unit ≤ 1152921504606846976 := by
  obtain ⟨hdiv, hnn, hle⟩ := hs
  have hnext : 1024 ^ (s.exp + 1 + 1) ≤ b := by
    rw [pow_succ]
    have : 1024 ≤ b / 1024 ^ (s.exp + 1) := by
      rw [← hnn]
      exact hn
    have h2 := (Nat.le_div_iff_mul_le (Nat.pos_pow_of_pos _ (by norm_num))).1 this
    omega
  have h6 := pow1024_le_of_lt _ b hb hnext
  have h60 := pow1024_le_two_pow_60 _ h6
  have hprod : s.div * (unit : Int) = ((1024 ^ (s.exp + 1 + 1) : Nat) : Int) := by
    rw [hdiv, pow_succ 1024 (s.exp + 1)]
    simp [unit]
  have hwrap : wrapInt64 (s.div * unit) = s.div * unit := by
    apply wrapInt64_of_range
    · rw [hprod]
      exact Int.natCast_nonneg _
    · rw [hprod]
      omega
  refine ⟨⟨?_, ?_, ?_⟩, hwrap, ?_⟩
  · show wrapInt64 (s.div * unit) = ((1024 ^ (s.exp + 1 + 1) : Nat) : Int)
    rw [hwrap, hprod]
  · show s.n / unit = b / 1024 ^ (s.exp + 1 + 1)
    rw [hnn, Nat.div_div_eq_div_mul, pow_succ 1024 (s.exp + 1)]
    rfl
  · exact hnext
  · rw [hprod]
    omega

theorem loop_run (b : Nat) (hb : b < 2 ^ 64) : ∀ (fuel : Nat) (s : LoopState),
    LoopInv b s → s.n < fuel →
    ∃ final, formatBytesLoop fuel s = some final ∧ LoopInv b final ∧ final.n < unit ∧
      final ∈ loopStates fuel s ∧ ∀ t ∈ loopStates fuel s, LoopInv b t := by
  intro fuel
  induction fuel with
  | zero => intro s _ h; omega
  | succ fuel ih =>
    intro s hs hfuel
    by_cases hn : s.n ≥ unit
    · have hbody := (loopInv_body b hb s hs hn).1
      have hlt : (loopBody s).n < fuel := by
        show s.n / unit < fuel
        have : s.n / unit < s.n := Nat.div_lt_self (by unfold unit at hn; omega) (by decide)
        omega
      obtain ⟨final, hrun, hinv, hfin, hmem, hall⟩ := ih (loopBody s) hbody hlt
      refine ⟨final, ?_, hinv, hfin, ?_, ?_⟩
      · simp [formatBytesLoop, hn, hrun]
      · simp [loopStates, hn, hmem]
      · intro t ht
        simp only [loopStates, hn, if_true, List.mem_cons] at ht
        rcases ht with rfl | ht
        · exact hs
        · exact hall t ht
    · refine ⟨s, ?_, hs, by omega, ?_, ?_⟩
      · simp [formatBytesLoop, hn]
      · simp [loopStates, hn]
      · intro t ht
        simp only [loopStates, hn, if_false, List.mem_cons, List.not_mem_nil, or_false] at ht
        rw [ht]
        exact hs

/-! ## Decimal rendering -/

theorem digitChar_ne_dot (d : Nat) (h : d < 10) : Nat.digitChar d ≠ '.' := by
  interval_cases d <;> decide

theorem toDigitsCore_no_dot : ∀ (fuel n : Nat) (ds : List Char), '.' ∉ ds →
    '.' ∉ Nat.toDigitsCore 10 fuel n ds := by
  intro fuel
  induction fuel with
  | zero => intro n ds h; simpa [Nat.toDigitsCore] using h
  | succ fuel ih =>
    intro n ds h
    have hd : '.' ∉ Nat.digitChar (n % 10) :: ds := by
      simp only [List.mem_cons, not_or]
      exact ⟨(digitChar_ne_dot _ (Nat.mod_lt _ (by decide))).symm, h⟩
    simp only [Nat.toDigitsCore]
    split
    · exact hd
    · exact ih _ _ hd

theorem toString_no_dot (n : Nat) : '.' ∉ (toString n).toList := by
  show '.' ∉ (Nat.toDigits 10 n).asString.toList
  simp only [List.asString, Nat.toDigits]
  exact toDigitsCore_no_dot _ _ _ (by simp)

theorem padZeros_one (d : Nat) (h : d < 10) : padZeros 1 d = toString d := by
  interval_cases d <;> decide

theorem roundHalfEven_bounds (num den lo hi : Nat) (hden : 0 < den) (hlo : lo * den ≤ num)
    (hhi : num ≤ hi * den) : lo ≤ roundHalfEven num den ∧ roundHalfEven num den ≤ hi := by
  have hq1 : lo ≤ num / den := (Nat.le_div_iff_mul_le hden).2 hlo
  have hq2 : num / den ≤ hi := by
    apply Nat.div_le_of_le_mul
    rw [Nat.mul_comm]
    exact hhi
  unfold roundHalfEven
  simp only
  split
  · rename_i hup
    refine ⟨by omega, ?_⟩
    rcases Nat.lt_or_ge (num / den) hi with hlt | hge
    · omega
    · exfalso
      have hqeq : num / den = hi := by omega
      have hdm := Nat.div_add_mod num den
      rw [hqeq] at hdm
      have hr0 : num % den = 0 := by
        have : den * hi = hi * den := Nat.mul_comm _ _
        omega
      rw [hr0] at hup
      omega
  · exact ⟨hq1, hq2⟩

theorem fixedDigits_one (num scale : Nat) (hlo : 2 ^ scale ≤ num) (hhi : num ≤ 1024 * 2 ^ scale) :
    10 ≤ roundHalfEven (num * 10) (2 ^ scale) ∧ roundHalfEven (num * 10) (2 ^ scale) ≤ 10240 ∧
    fixedDigits 1 num scale =
      toString (roundHalfEven (num * 10) (2 ^ scale) / 10) ++ "." ++
        toString (roundHalfEven (num * 10) (2 ^ scale) % 10) := by
  have hb := roundHalfEven_bounds (num * 10) (2 ^ scale) 10 10240 (Nat.two_pow_pos _)
    (by omega) (by omega)
  refine ⟨hb.1, hb.2, ?_⟩
  unfold fixedDigits
  simp only [pow_one, Nat.one_ne_zero, if_false]
  rw [padZeros_one _ (Nat.mod_lt _ (by decide))]

theorem pow1024_eq (k : Nat) : 1024 ^ k = 2 ^ (10 * k) := by
  rw [pow_mul]
  norm_num

theorem scaled_value_bounds (b k : Nat) (hlo : 1024 ^ k ≤ b) (hhi : b < 1024 ^ (k + 1)) :
    ∃ num scale, F64.div (F64.ofNat b) (F64.ofInt ((1024 ^ k : Nat) : Int)) =
        .finite false num scale ∧ 2 ^ scale ≤ num ∧ num ≤ 1024 * 2 ^ scale := by
  have hposk : 0 < 1024 ^ k := Nat.pos_pow_of_pos _ (by norm_num)
  have hb0 : b ≠ 0 := by omega
  have hk0 : 1024 ^ k ≠ 0 := by omega
  have e1 : 1024 ^ k = 2 ^ (10 * k) := pow1024_eq k
  have e2 : 1024 ^ (k + 1) = 2 ^ 10 * 2 ^ (10 * k) := by
    rw [pow_succ, e1]
    norm_num
    ring
  -- the numerator float64(b)
  have h1lo := roundToBinary64_ge b 1 (10 * k) (by decide) (by omega)
  have h1hi := roundToBinary64_le b 1 (10 * k + 10) hb0 (by decide) (by
    rw [pow_add]
    omega)
  -- the divisor float64(div)
  have h2lo := roundToBinary64_ge (1024 ^ k) 1 (10 * k) (by decide) (by omega)
  have h2hi := roundToBinary64_le (1024 ^ k) 1 (10 * k) hk0 (by decide) (by omega)
  have s1 : (roundToBinary64 b 1).2 = (roundToBinary64 (1024 ^ k) 1).2 := by
    rw [roundToBinary64_snd b 1 hb0 (by decide), roundToBinary64_snd _ 1 hk0 (by decide)]
  generalize hr1 : roundToBinary64 b 1 = r1 at *
  generalize hr2 : roundToBinary64 (1024 ^ k) 1 = r2 at *
  have hr2eq : r2.1 = 2 ^ (10 * k) * 2 ^ r2.2 := le_antisymm h2hi h2lo
  have hr2pos : 0 < r2.1 := by
    rw [hr2eq]
    exact Nat.mul_pos (Nat.two_pow_pos _) (Nat.two_pow_pos _)
  have hden0 : r2.1 * 2 ^ r1.2 ≠ 0 := by
    have := Nat.mul_pos hr2pos (Nat.two_pow_pos r1.2)
    omega
  have hnum0 : r1.1 * 2 ^ r2.2 ≠ 0 := by
    have hp : 0 < r1.1 := lt_of_lt_of_le (Nat.mul_pos (Nat.two_pow_pos _) (Nat.two_pow_pos _)) h1lo
    have := Nat.mul_pos hp (Nat.two_pow_pos r2.2)
    omega
  have hqlo := roundToBinary64_ge (r1.1 * 2 ^ r2.2) (r2.1 * 2 ^ r1.2) 0 hden0 (by
    rw [hr2eq, s1, pow_zero, one_mul]
    exact Nat.mul_le_mul_right _ (by rw [← s1]; exact h1lo))
  have hqhi := roundToBinary64_le (r1.1 * 2 ^ r2.2) (r2.1 * 2 ^ r1.2) 10 hnum0 hden0 (by
    rw [hr2eq, s1]
    have hh : r1.1 ≤ 2 ^ 10 * (2 ^ (10 * k) * 2 ^ r2.2) := by
      rw [← s1]
      calc r1.1 ≤ 2 ^ (10 * k + 10) * 2 ^ r1.2 := h1hi
        _ = 2 ^ 10 * (2 ^ (10 * k) * 2 ^ r1.2) := by rw [pow_add]; ring
    calc r1.1 * 2 ^ r2.2 ≤ 2 ^ 10 * (2 ^ (10 * k) * 2 ^ r2.2) * 2 ^ r2.2 :=
          Nat.mul_le_mul_right _ hh
      _ = 2 ^ 10 * (2 ^ (10 * k) * 2 ^ r2.2 * 2 ^ r2.2) := by ring)
  refine ⟨(roundToBinary64 (r1.1 * 2 ^ r2.2) (r2.1 * 2 ^ r1.2)).1,
    (roundToBinary64 (r1.1 * 2 ^ r2.2) (r2.1 * 2 ^ r1.2)).2, ?_, ?_, ?_⟩
  · have hneg : ¬ (((1024 ^ k : Nat) : Int) < 0) := by
      have := Int.natCast_nonneg (1024 ^ k)
      omega
    simp only [F64.ofNat, F64.ofInt, Int.natAbs_ofNat, hr1, hr2, F64.div, hneg, decide_False]
    have : r2.1 ≠ 0 := by omega
    simp [this]
  · simpa using hqlo
  · simpa using hqhi

/-! ## Shape of the result of `formatBytes` -/

/-- For a count of at least one unit below `2 ^ 64` the loop exits, with
`exp = k - 1`, `div = 1024 ^ k` and `n = b / 1024 ^ k`, where
`1024 ^ k ≤ b < 1024 ^ (k + 1)` and `1 ≤ k ≤ 6`; every state it goes through
satisfies the invariant. -/
theorem loop_result (b : Nat) (h1 : 1024 ≤ b) (h2 : b < 2 ^ 64) :
    ∃ k, 1 ≤ k ∧ k ≤ 6 ∧ 1024 ^ k ≤ b ∧ b < 1024 ^ (k + 1) ∧
      formatBytesLoop b (loopInit b) =
        some { n := b / 1024 ^ k, div := ((1024 ^ k : Nat) : Int), exp := k - 1 } ∧
      ({ n := b / 1024 ^ k, div := ((1024 ^ k : Nat) : Int), exp := k - 1 } : LoopState) ∈
        loopStates b (loopInit b) ∧
      ∀ t ∈ loopStates b (loopInit b), LoopInv b t := by
  have hfuel : (loopInit b).n < b := by
    show b / unit < b
    exact Nat.div_lt_self (by omega) (by decide)
  obtain ⟨final, hrun, ⟨hdiv, hn, hle⟩, hfin, hmem, hall⟩ :=
    loop_run b h2 b (loopInit b) (loopInv_init b h1) hfuel
  have hfinal : LoopState.mk (b / 1024 ^ (final.exp + 1))
      ((1024 ^ (final.exp + 1) : Nat) : Int) (final.exp + 1 - 1) = final := by
    rw [← hdiv, ← hn]
    rfl
  refine ⟨final.exp + 1, by omega, pow1024_le_of_lt _ b h2 hle, hle, ?_, ?_, ?_, hall⟩
  · rw [hn] at hfin
    have := (Nat.div_lt_iff_lt_mul (Nat.pos_pow_of_pos (final.exp + 1) (by norm_num))).1 hfin
    rw [pow_succ 1024 (final.exp + 1)]
    unfold unit at this
    omega
  · rw [hrun, hfinal]
  · rw [hfinal]
    exact hmem

theorem unit_unique (b k j : Nat) (hk1 : 1024 ^ k ≤ b) (hk2 : b < 1024 ^ (k + 1))
    (hj1 : 1024 ^ j ≤ b) (hj2 : b < 1024 ^ (j + 1)) : j = k := by
  rcases Nat.lt_trichotomy j k with h | h | h
  · have : 1024 ^ (j + 1) ≤ 1024 ^ k := Nat.pow_le_pow_right (by norm_num) h
    omega
  · exact h
  · have : 1024 ^ (k + 1) ≤ 1024 ^ j := Nat.pow_le_pow_right (by norm_num) h
    omega

theorem unitChar_of_exp (k : Nat) (h1 : 1 ≤ k) (h6 : k ≤ 6) :
    ∃ c u, unitChar (k - 1) = some c ∧ ["KB", "MB", "GB", "TB", "PB", "EB"][k - 1]? = some u ∧
      String.singleton c ++ "B" = u := by
  interval_cases k
  · exact ⟨'K', "KB", by decide, by decide, by decide⟩
  · exact ⟨'M', "MB", by decide, by decide, by decide⟩
  · exact ⟨'G', "GB", by decide, by decide, by decide⟩
  · exact ⟨'T', "TB", by decide, by decide, by decide⟩
  · exact ⟨'P', "PB", by decide, by decide, by decide⟩
  · exact ⟨'E', "EB", by decide, by decide, by decide⟩

theorem formatBytes_of_loop (b k : Nat) (c : Char) (u : String) (h1 : 1024 ≤ b)
    (hrun : formatBytesLoop b (loopInit b) =
      some { n := b / 1024 ^ k, div := ((1024 ^ k : Nat) : Int), exp := k - 1 })
    (hc : unitChar (k - 1) = some c) (hu : String.singleton c ++ "B" = u) :
    formatBytes b = some (sprintfFixed 1
      (F64.div (F64.ofNat b) (F64.ofInt ((1024 ^ k : Nat) : Int))) ++ " " ++ u) := by
  have hnot : ¬ b < unit := by unfold unit; omega
  unfold formatBytes
  simp only [hnot, if_false, hrun, hc]
  rw [← hu, String.append_assoc _ (String.singleton c) "B"]

theorem formatBytes_small (b : Nat) (h : b < 1024) :
    formatBytes b = some (toString b ++ " B") := by
  have : b < unit := h
  simp [formatBytes, this]

theorem formatBytes_total (b : Nat) (hb : b < 2 ^ 64) : ∃ out, formatBytes b = some out := by
  rcases Nat.lt_or_ge b 1024 with h | h
  · exact ⟨_, formatBytes_small b h⟩
  · obtain ⟨k, hk1, hk6, _, _, hrun, _, _⟩ := loop_result b h hb
    obtain ⟨c, u, hc, _, hcu⟩ := unitChar_of_exp k hk1 hk6
    exact ⟨_, formatBytes_of_loop b k c u h hrun hc hcu⟩

/-! ## Claims about `formatBytes` -/

/-- C1: for every byte count `1024 ≤ b < 2 ^ 64` the loop of `formatBytes` ends with
`exp = k - 1` and `div = 1024 ^ k`, where `k ∈ 1..6` is the unique integer with
`1024 ^ k ≤ b < 1024 ^ (k + 1)`; the unit printed is the `k`-th of KB, MB, GB, TB, PB,
EB; the exact quotient `b / div` lies in `[1, 1024)`. Moreover
`formatBytes 1024 = "1.0 KB"` and `formatBytes 1048576 = "1.0 MB"`. -/
theorem formatBytes_selects_largest_unit (b : Nat) (h1 : 1024 ≤ b) (h2 : b < 2 ^ 64) :
    (∃ k, 1 ≤ k ∧ k ≤ 6 ∧ 1024 ^ k ≤ b ∧ b < 1024 ^ (k + 1) ∧
      (∀ j, 1024 ^ j ≤ b → b < 1024 ^ (j + 1) → j = k) ∧
      formatBytesLoop b (loopInit b) =
        some { n := b / 1024 ^ k, div := ((1024 ^ k : Nat) : Int), exp := k - 1 } ∧
      (∃ u, ["KB", "MB", "GB", "TB", "PB", "EB"][k - 1]? = some u ∧
        formatBytes b = some (sprintfFixed 1
          (F64.div (F64.ofNat b) (F64.ofInt ((1024 ^ k : Nat) : Int))) ++ " " ++ u)) ∧
      (1 : ℚ) ≤ (b : ℚ) / ((1024 ^ k : Nat) : ℚ) ∧ (b : ℚ) / ((1024 ^ k : Nat) : ℚ) < 1024) ∧
    formatBytes 1024 = some "1.0 KB" ∧ formatBytes 1048576 = some "1.0 MB" := by
  refine ⟨?_, by decide, by decide⟩
  obtain ⟨k, hk1, hk6, hlo, hhi, hrun, _, _⟩ := loop_result b h1 h2
  obtain ⟨c, u, hc, hu, hcu⟩ := unitChar_of_exp k hk1 hk6
  have hpos : (0 : ℚ) < ((1024 ^ k : Nat) : ℚ) := by
    have : 0 < 1024 ^ k := Nat.pos_pow_of_pos _ (by norm_num)
    exact_mod_cast this
  refine ⟨k, hk1, hk6, hlo, hhi, fun j hj1 hj2 => unit_unique b k j hlo hhi hj1 hj2, hrun,
    ⟨u, hu, formatBytes_of_loop b k c u h1 hrun hc hcu⟩, ?_, ?_⟩
  · rw [le_div_iff₀ hpos, one_mul]
    exact_mod_cast hlo
  · rw [div_lt_iff₀ hpos]
    have : b < 1024 * 1024 ^ k := by
      rw [pow_succ] at hhi
      omega
    exact_mod_cast this

/-- Witness of C1 at `b = 1536`. -/
theorem formatBytes_selects_largest_unit_witness :
    (1024 ≤ 1536 ∧ 1536 < 2 ^ 64) ∧
    ((∃ k, 1 ≤ k ∧ k ≤ 6 ∧ 1024 ^ k ≤ 1536 ∧ 1536 < 1024 ^ (k + 1) ∧
      (∀ j, 1024 ^ j ≤ 1536 → 1536 < 1024 ^ (j + 1) → j = k) ∧
      formatBytesLoop 1536 (loopInit 1536) =
        some { n := 1536 / 1024 ^ k, div := ((1024 ^ k : Nat) : Int), exp := k - 1 } ∧
      (∃ u, ["KB", "MB", "GB", "TB", "PB", "EB"][k - 1]? = some u ∧
        formatBytes 1536 = some (sprintfFixed 1
          (F64.div (F64.ofNat 1536) (F64.ofInt ((1024 ^ k : Nat) : Int))) ++ " " ++ u)) ∧
      (1 : ℚ) ≤ ((1536 : Nat) : ℚ) / ((1024 ^ k : Nat) : ℚ) ∧
        ((1536 : Nat) : ℚ) / ((1024 ^ k : Nat) : ℚ) < 1024) ∧
    formatBytes 1024 = some "1.0 KB" ∧ formatBytes 1048576 = some "1.0 MB") :=
  ⟨⟨by decide, by decide⟩, formatBytes_selects_largest_unit 1536 (by decide) (by decide)⟩

/-- C2: for every byte count `b < 1024`, `formatBytes b` is the decimal representation
of `b` followed by `" B"` and contains no decimal point; `formatBytes 0 = "0 B"` and
`formatBytes 1023 = "1023 B"`. -/
theorem formatBytes_below_unit (b : Nat) (h : b < 1024) :
    formatBytes b = some (toString b ++ " B") ∧ '.' ∉ (toString b ++ " B").toList ∧
    formatBytes 0 = some "0 B" ∧ formatBytes 1023 = some "1023 B" := by
  refine ⟨?_, ?_, by decide, by decide⟩
  · exact formatBytes_small b h
  · have := toString_no_dot b
    simp only [String.toList] at this ⊢
    simp [String.data_append, this]

/-- Witness of C2 at `b = 512`. -/
theorem formatBytes_below_unit_witness :
    512 < 1024 ∧ (formatBytes 512 = some (toString 512 ++ " B") ∧
      '.' ∉ (toString 512 ++ " B").toList ∧
      formatBytes 0 = some "0 B" ∧ formatBytes 1023 = some "1023 B") :=
  ⟨by decide, formatBytes_below_unit 512 (by decide)⟩

/-- C3 fails as stated: `1048575 < 1024 ^ 2` selects the unit KB (`div = 1024`,
`exp = 0`), the exact scaled value `1048575 / 1024` is below `1024`, the `float64`
quotient is that value exactly, its rounding to tenths is `10240` tenths, and the
number printed is `1024.0`. -/
theorem formatBytes_prints_1024 :
    1048575 < 2 ^ 64 ∧ (1048575 : ℚ) / 1024 < 1024 ∧
      formatBytesLoop 1048575 (loopInit 1048575) = some { n := 1023, div := 1024, exp := 0 } ∧
      F64.div (F64.ofNat 1048575) (F64.ofInt 1024) = .finite false (1048575 * 2 ^ 165) 175 ∧
      roundHalfEven (1048575 * 2 ^ 165 * 10) (2 ^ 175) = 10240 ∧
      formatBytes 1048575 = some "1024.0 KB" := by
  refine ⟨by decide, by norm_num, by decide, by decide, by decide, by decide⟩

/-- C3 as amended: for every byte count `b < 2 ^ 64` the output is `<number> <unit>`;
below `1024` it is the raw integer followed by `B`; from `1024` on the unit is one of
KB, MB, GB, TB, PB, EB and the number printed is `T / 10` with one fractional digit
`T % 10`, where `T` is the `float64` quotient rounded to tenths and
`10 ≤ T ≤ 10240`, that is, the printed number lies in `[1.0, 1024.0]`. -/
theorem formatBytes_printed_number (b : Nat) (hb : b < 2 ^ 64) :
    (b < 1024 → formatBytes b = some (toString b ++ " B")) ∧
    (1024 ≤ b → ∃ k T num scale u, 1024 ^ k ≤ b ∧ b < 1024 ^ (k + 1) ∧
      u ∈ ["KB", "MB", "GB", "TB", "PB", "EB"] ∧
      F64.div (F64.ofNat b) (F64.ofInt ((1024 ^ k : Nat) : Int)) = .finite false num scale ∧
      T = roundHalfEven (num * 10) (2 ^ scale) ∧ 10 ≤ T ∧ T ≤ 10240 ∧
      formatBytes b = some (toString (T / 10) ++ "." ++ toString (T % 10) ++ " " ++ u)) := by
  refine ⟨fun h => formatBytes_small b h, fun h1 => ?_⟩
  obtain ⟨k, hk1, hk6, hlo, hhi, hrun, _, _⟩ := loop_result b h1 hb
  obtain ⟨c, u, hc, hu, hcu⟩ := unitChar_of_exp k hk1 hk6
  obtain ⟨num, scale, hdiv, hnlo, hnhi⟩ := scaled_value_bounds b k hlo hhi
  obtain ⟨hT1, hT2, hfix⟩ := fixedDigits_one num scale hnlo hnhi
  refine ⟨k, _, num, scale, u, hlo, hhi, List.getElem?_mem hu, hdiv, rfl, hT1, hT2, ?_⟩
  rw [formatBytes_of_loop b k c u h1 hrun hc hcu, hdiv]
  simp [sprintfFixed, hfix]

/-- Witness of the amended C3 at `b = 1048575`. -/
theorem formatBytes_printed_number_witness :
    1048575 < 2 ^ 64 ∧
    ((1048575 < 1024 → formatBytes 1048575 = some (toString 1048575 ++ " B")) ∧
    (1024 ≤ 1048575 → ∃ k T num scale u, 1024 ^ k ≤ 1048575 ∧ 1048575 < 1024 ^ (k + 1) ∧
      u ∈ ["KB", "MB", "GB", "TB", "PB", "EB"] ∧
      F64.div (F64.ofNat 1048575) (F64.ofInt ((1024 ^ k : Nat) : Int)) =
        .finite false num scale ∧
      T = roundHalfEven (num * 10) (2 ^ scale) ∧ 10 ≤ T ∧ T ≤ 10240 ∧
      formatBytes 1048575 =
        some (toString (T / 10) ++ "." ++ toString (T % 10) ++ " " ++ u))) :=
  ⟨by decide, formatBytes_printed_number 1048575 (by decide)⟩

/-- C4: for every `b < 2 ^ 64`, `formatBytes b` returns a string (the loop terminates
and nothing panics); for `b ≥ 1024` the accumulator `div` is positive and at most
`2 ^ 60` at every evaluation of the loop condition, each executed `div *= 1024` has an
unwrapped product of at most `2 ^ 60` and so is not changed by the 64-bit wrap, and the
final `exp` is at most `5`, an index inside the six bytes of `"KMGTPE"`. -/
theorem formatBytes_no_overflow (b : Nat) (hb : b < 2 ^ 64) :
    (∃ out, formatBytes b = some out) ∧
    (1024 ≤ b → ∃ final, formatBytesLoop b (loopInit b) = some final ∧
      final ∈ loopStates b (loopInit b) ∧
      final.exp ≤ 5 ∧ final.exp < "KMGTPE".length ∧ (∃ c, unitChar final.exp = some c) ∧
      ∀ s ∈ loopStates b (loopInit b), 0 < s.div ∧ s.div ≤ 2 ^ 60 ∧
        (s.n ≥ unit → s.div * unit ≤ 2 ^ 60 ∧ wrapInt64 (s.div * unit) = s.div * unit)) := by
  refine ⟨formatBytes_total b hb, ?_⟩
  · intro h
    obtain ⟨k, hk1, hk6, _, _, hrun, hmem, hall⟩ := loop_result b h hb
    obtain ⟨c, u, hc, _, _⟩ := unitChar_of_exp k hk1 hk6
    refine ⟨_, hrun, hmem, ?_, ?_, ⟨c, hc⟩, ?_⟩
    · show k - 1 ≤ 5
      omega
    · show k - 1 < "KMGTPE".length
      have : "KMGTPE".length = 6 := by decide
      omega
    · intro s hs
      have hinv := hall s hs
      obtain ⟨hdiv, _, hle⟩ := hinv
      have h6 := pow1024_le_of_lt _ b hb hle
      have h60 := pow1024_le_two_pow_60 _ h6
      have hpos : 0 < 1024 ^ (s.exp + 1) := Nat.pos_pow_of_pos _ (by norm_num)
      refine ⟨?_, ?_, fun hn => ?_⟩
      · rw [hdiv]
        exact_mod_cast hpos
      · rw [hdiv]
        norm_num
        exact_mod_cast h60
      · obtain ⟨_, hw, hp⟩ := loopInv_body b hb s (hall s hs) hn
        refine ⟨?_, hw⟩
        norm_num
        exact hp

/-- Witness of C4 at the largest 64-bit count. -/
theorem formatBytes_no_overflow_witness :
    18446744073709551615 < 2 ^ 64 ∧
    ((∃ out, formatBytes 18446744073709551615 = some out) ∧
    (1024 ≤ 18446744073709551615 →
      ∃ final, formatBytesLoop 18446744073709551615 (loopInit 18446744073709551615) =
          some final ∧
        final ∈ loopStates 18446744073709551615 (loopInit 18446744073709551615) ∧
        final.exp ≤ 5 ∧ final.exp < "KMGTPE".length ∧ (∃ c, unitChar final.exp = some c) ∧
        ∀ s ∈ loopStates 18446744073709551615 (loopInit 18446744073709551615),
          0 < s.div ∧ s.div ≤ 2 ^ 60 ∧
          (s.n ≥ unit → s.div * unit ≤ 2 ^ 60 ∧ wrapInt64 (s.div * unit) = s.div * unit))) :=
  ⟨by decide, formatBytes_no_overflow 18446744073709551615 (by decide)⟩

/-! ## Runs and `displayGraph` -/

theorem andThen_emit (es : List Event) (k : Run) :
    (Run.emit es).andThen k = { trace := es ++ k.trace, fault := k.fault } := by
  simp [Run.andThen, Run.emit]

theorem andThen_no_fault (r k : Run) (hr : r.fault = none) :
    (r.andThen k).fault = k.fault ∧ (r.andThen k).trace = r.trace ++ k.trace := by
  simp [Run.andThen, hr]

theorem andThen_fault (r k : Run) (f : Fault) (hr : r.fault = some f) : r.andThen k = r := by
  simp [Run.andThen, hr]

theorem mem_andThen (r k : Run) (e : Event) (h : e ∈ (r.andThen k).trace) :
    e ∈ r.trace ∨ e ∈ k.trace := by
  unfold Run.andThen at h
  split at h
  · simpa using h
  · exact Or.inl h

theorem displayGraphPlot_fault (plot : List F64 → Nat → Option String) (data : List F64) :
    (displayGraphPlot plot data).fault ≠ some .indexOutOfRange := by
  unfold displayGraphPlot
  split <;> simp [Run.emit]

theorem displayGraphHead_fault (title color : String) (extraInfo : List String) :
    ((displayGraphHead title color extraInfo).fault = some .indexOutOfRange ↔
      extraInfo.length = 1) ∧
    ((displayGraphHead title color extraInfo).fault = none ↔ extraInfo.length ≠ 1) := by
  unfold displayGraphHead
  match extraInfo with
  | [] => simp [Run.emit]
  | [a] => simp
  | a :: b :: rest => simp [Run.emit]

theorem displayGraph_fault (plot : List F64 → Nat → Option String) (title : String)
    (data : List F64) (color : String) (extraInfo : List String) :
    (displayGraph plot title data color extraInfo).fault = some .indexOutOfRange ↔
      extraInfo.length = 1 := by
  obtain ⟨h1, h2⟩ := displayGraphHead_fault title color extraInfo
  unfold displayGraph
  constructor
  · intro h
    by_contra hl
    have hn := h2.2 hl
    rw [(andThen_no_fault _ (displayGraphPlot plot data) hn).1] at h
    exact displayGraphPlot_fault plot data h
  · intro hl
    rw [andThen_fault _ _ _ (h1.2 hl)]
    exact h1.2 hl

theorem displayGraph_no_query (plot : List F64 → Nat → Option String) (title : String)
    (data : List F64) (color : String) (extraInfo : List String) :
    ∀ e ∈ (displayGraph plot title data color extraInfo).trace, e.isQuery = false := by
  intro e he
  rcases mem_andThen _ _ _ he with h | h
  · revert h
    unfold displayGraphHead
    match extraInfo with
    | [] => simp [Run.emit]; rintro rfl; rfl
    | [a] => simp; rintro rfl; rfl
    | a :: b :: rest => simp [Run.emit]; rintro (rfl | rfl) <;> rfl
  · revert h
    unfold displayGraphPlot
    split
    · simp [Run.emit]; rintro rfl; rfl
    · simp

theorem displayGraph_two (plot : List F64 → Nat → Option String) (title : String)
    (data : List F64) (color u t : String) :
    displayGraph plot title data color [u, t] =
      match plot data 10 with
      | some graph => Run.emit [.print ("\n" ++ color ++ title ++ "\x1b[0m\n"),
          .print ("Used: " ++ u ++ ", Total: " ++ t ++ "\n"),
          .print ("\x1b[92m" ++ graph ++ "\x1b[0m\n")]
      | none => { trace := [.print ("\n" ++ color ++ title ++ "\x1b[0m\n"),
          .print ("Used: " ++ u ++ ", Total: " ++ t ++ "\n")], fault := some .plotPanic } := by
  unfold displayGraph displayGraphHead displayGraphPlot
  cases plot data 10 <;> simp [Run.emit, Run.andThen]

theorem displayUsageGraph_call (plot : List F64 → Nat → Option String) (title : String)
    (pct : F64) (color : String) (used total : Nat) (hu : used < 2 ^ 64) (ht : total < 2 ^ 64) :
    ∃ u t, formatBytes used = some u ∧ formatBytes total = some t ∧
      displayUsageGraph plot title pct color used total =
        displayGraph plot title [pct] color [u, t] := by
  obtain ⟨u, hu'⟩ := formatBytes_total used hu
  obtain ⟨t, ht'⟩ := formatBytes_total total ht
  exact ⟨u, t, hu', ht', by simp [displayUsageGraph, hu', ht']⟩

theorem displayUsageGraph_no_query (plot : List F64 → Nat → Option String) (title : String)
    (pct : F64) (color : String) (used total : Nat) :
    ∀ e ∈ (displayUsageGraph plot title pct color used total).trace, e.isQuery = false := by
  unfold displayUsageGraph
  split
  · exact displayGraph_no_query _ _ _ _ _
  · simp

theorem queries_eq_nil (t : List Event) (h : ∀ e ∈ t, e.isQuery = false) : queries t = [] := by
  unfold queries
  rw [List.filter_eq_nil_iff]
  intro e he
  simp [h e he]

theorem queries_append (a b : List Event) : queries (a ++ b) = queries a ++ queries b := by
  simp [queries]

theorem outputs_append (a b : List Event) : outputs (a ++ b) = outputs a ++ outputs b := by
  simp [outputs]

/-! ## The dispatcher -/

theorem displayDiskInfoBody_queries (E : Externals) (i : Nat) (p : PartitionStat) :
    queries (displayDiskInfoBody E i p).trace = [.diskUsage p.mountpoint] := by
  unfold displayDiskInfoBody
  split
  · simp [Run.emit, queries, Event.isQuery]
  · rw [andThen_emit]
    show queries ([Event.diskUsage p.mountpoint] ++ _) = _
    rw [queries_append, queries_eq_nil _ (displayUsageGraph_no_query _ _ _ _ _ _)]
    simp [queries, Event.isQuery]

theorem displayDiskInfoLoop_queries (E : Externals) : ∀ (ps : List PartitionStat) (i : Nat),
    ∀ e ∈ queries (displayDiskInfoLoop E i ps).trace, ∃ path, e = .diskUsage path := by
  intro ps
  induction ps with
  | nil => intro i e he; simp [displayDiskInfoLoop, Run.emit, queries] at he
  | cons p rest ih =>
    intro i e he
    simp only [displayDiskInfoLoop, queries, List.mem_filter] at he
    rcases mem_andThen _ _ _ he.1 with h | h
    · have : e ∈ queries (displayDiskInfoBody E i p).trace := by
        simp only [queries, List.mem_filter]
        exact ⟨h, he.2⟩
      rw [displayDiskInfoBody_queries] at this
      exact ⟨p.mountpoint, by simpa using this⟩
    · exact ih (i + 1) e (by
        simp only [queries, List.mem_filter]
        exact ⟨h, he.2⟩)

/-- C5: for every value of the flag other than `cpu`, `memory` and `disk` the
dispatcher only prints the guidance message and makes no query; `cpu` runs
`displayCPUInfo`, whose only query is the CPU one; `memory` runs `displayMemoryInfo`,
whose only query is the memory one; `disk` runs `displayDiskInfo`, whose queries are
the partition list and per-partition usages. -/
theorem displaySystemInfo_dispatch (E : Externals) (selectedInfo : String) :
    ((selectedInfo ≠ "cpu" ∧ selectedInfo ≠ "memory" ∧ selectedInfo ≠ "disk") →
      displaySystemInfo E selectedInfo = Run.emit [.print invalidOption] ∧
      queries (displaySystemInfo E selectedInfo).trace = []) ∧
    invalidOption = "Invalid option. Please use \x27cpu\x27, \x27memory\x27, or \x27disk\x27.\n" ∧
    (displaySystemInfo E "cpu" = displayCPUInfo E ∧
      queries (displayCPUInfo E).trace = [.cpuPercent second true]) ∧
    (displaySystemInfo E "memory" = displayMemoryInfo E ∧
      queries (displayMemoryInfo E).trace = [.virtualMemory]) ∧
    (displaySystemInfo E "disk" = displayDiskInfo E ∧
      ∃ rest, queries (displayDiskInfo E).trace = .partitions true :: rest ∧
        ∀ e ∈ rest, ∃ path, e = .diskUsage path) := by
  refine ⟨?_, rfl, ⟨?_, ?_⟩, ⟨?_, ?_⟩, ⟨?_, ?_⟩⟩
  · rintro ⟨h1, h2, h3⟩
    simp [displaySystemInfo, h1, h2, h3, Run.emit, queries, Event.isQuery]
  · simp [displaySystemInfo]
  · unfold displayCPUInfo
    split
    · simp [Run.emit, queries, Event.isQuery]
    · rw [andThen_emit]
      show queries ([Event.cpuPercent second true] ++ _) = _
      rw [queries_append, queries_eq_nil _ (displayGraph_no_query _ _ _ _ _)]
      simp [queries, Event.isQuery]
  · simp [displaySystemInfo]
  · unfold displayMemoryInfo
    split
    · simp [Run.emit, queries, Event.isQuery]
    · rw [andThen_emit]
      show queries ([Event.virtualMemory] ++ _) = _
      rw [queries_append, queries_eq_nil _ (displayUsageGraph_no_query _ _ _ _ _ _)]
      simp [queries, Event.isQuery]
  · simp [displaySystemInfo]
  · unfold displayDiskInfo
    split
    · exact ⟨[], by simp [Run.emit, queries, Event.isQuery], by simp⟩
    · rename_i ps _
      rw [andThen_emit]
      refine ⟨queries (displayDiskInfoLoop E 0 ps).trace, ?_, displayDiskInfoLoop_queries E ps 0⟩
      show queries ([Event.partitions true] ++ _) = _
      rw [queries_append]
      simp [queries, Event.isQuery]

/-- Witness of C5 at the flag value `bogus`. -/
theorem displaySystemInfo_dispatch_witness :
    ("bogus" ≠ "cpu" ∧ "bogus" ≠ "memory" ∧ "bogus" ≠ "disk") ∧
    displaySystemInfo mixedExternals "bogus" =
      Run.emit [.print "Invalid option. Please use \x27cpu\x27, \x27memory\x27, or \x27disk\x27.\n"] ∧
    queries (displaySystemInfo mixedExternals "bogus").trace = [] :=
  ⟨by decide,
    (displaySystemInfo_dispatch mixedExternals "bogus").1 (by decide)⟩

/-! ## The disk listings -/

theorem displayDiskInfoBody_error (E : Externals) (i : Nat) (p : PartitionStat) (err : String)
    (h : E.diskUsage i p.mountpoint = .error err) :
    displayDiskInfoBody E i p = Run.emit [.diskUsage p.mountpoint,
      .print ("Error fetching disk usage for " ++ p.mountpoint ++ ": " ++ err ++ "\n")] := by
  simp [displayDiskInfoBody, h]

theorem displayDiskInfoBody_ok (E : Externals) (i : Nat) (p : PartitionStat) (u : UsageStat)
    (h : E.diskUsage i p.mountpoint = .ok u) (hu : u.used < 2 ^ 64) (ht : u.total < 2 ^ 64) :
    ∃ su st, formatBytes u.used = some su ∧ formatBytes u.total = some st ∧
      displayDiskInfoBody E i p =
        match E.plot [u.usedPercent] 10 with
        | some graph => Run.emit [.diskUsage p.mountpoint,
            .print ("\n" ++ "\x1b[1;31m" ++ ("Disk Usage (" ++ p.mountpoint ++ ")") ++ "\x1b[0m\n"),
            .print ("Used: " ++ su ++ ", Total: " ++ st ++ "\n"),
            .print ("\x1b[92m" ++ graph ++ "\x1b[0m\n")]
        | none => Run.mk [.diskUsage p.mountpoint,
            .print ("\n" ++ "\x1b[1;31m" ++ ("Disk Usage (" ++ p.mountpoint ++ ")") ++ "\x1b[0m\n"),
            .print ("Used: " ++ su ++ ", Total: " ++ st ++ "\n")] (some .plotPanic) := by
  obtain ⟨su, st, h1, h2, h3⟩ := displayUsageGraph_call E.plot
    ("Disk Usage (" ++ p.mountpoint ++ ")") u.usedPercent "\x1b[1;31m" u.used u.total hu ht
  refine ⟨su, st, h1, h2, ?_⟩
  simp only [displayDiskInfoBody, h, h3, andThen_emit, displayGraph_two]
  cases E.plot [u.usedPercent] 10 <;> simp [Run.emit]

theorem getDiskSpaceBody_no_fault (E : Externals) (i : Nat) (p : PartitionStat) :
    (getDiskSpaceBody E i p).fault = none := by
  unfold getDiskSpaceBody
  split <;> rfl

theorem getDiskSpaceBody_error (E : Externals) (i : Nat) (p : PartitionStat) (err : String)
    (h : E.diskUsage i p.mountpoint = .error err) :
    getDiskSpaceBody E i p = Run.emit [.diskUsage p.mountpoint,
      .print ("Error getting disk space usage: " ++ err ++ "\n")] := by
  simp [getDiskSpaceBody, h]

theorem getDiskSpaceBody_ok (E : Externals) (i : Nat) (p : PartitionStat) (u : UsageStat)
    (h : E.diskUsage i p.mountpoint = .ok u) :
    getDiskSpaceBody E i p = Run.emit [.diskUsage p.mountpoint,
      .print ("Disk: " ++ p.mountpoint ++ "\n"),
      .colorPrint .cyan ("Total Space: " ++ sprintfFixed 2 (gigabytes u.total) ++ " GB\n"),
      .colorPrint .green ("Free Space: " ++ sprintfFixed 2 (gigabytes u.free) ++ " GB\n"),
      .colorPrint .red ("Used Space: " ++ sprintfFixed 2 (gigabytes u.used) ++ " GB\n"),
      .print "\n"] := by
  simp [getDiskSpaceBody, h]

theorem getDiskSpaceBody_queries (E : Externals) (i : Nat) (p : PartitionStat) :
    queries (getDiskSpaceBody E i p).trace = [.diskUsage p.mountpoint] := by
  unfold getDiskSpaceBody
  split <;> simp [Run.emit, queries, Event.isQuery]

/-- A loop whose bodies do not panic performs the bodies one after the other. -/
theorem loop_trace (body : Nat → PartitionStat → Run) (loop : Nat → List PartitionStat → Run)
    (hnil : ∀ i, loop i [] = Run.emit [])
    (hcons : ∀ i p rest, loop i (p :: rest) = (body i p).andThen (loop (i + 1) rest)) :
    ∀ (ps : List PartitionStat) (i : Nat),
      (∀ ip ∈ ps.enumFrom i, (body ip.1 ip.2).fault = none) →
      (loop i ps).fault = none ∧
      (loop i ps).trace = (ps.enumFrom i).flatMap fun ip => (body ip.1 ip.2).trace := by
  intro ps
  induction ps with
  | nil => intro i _; simp [hnil, Run.emit]
  | cons p rest ih =>
    intro i hsafe
    obtain ⟨h1, h2⟩ := ih (i + 1) (fun ip hip => hsafe ip (by simp [hip]))
    obtain ⟨h3, h4⟩ := andThen_no_fault (body i p) (loop (i + 1) rest) (hsafe (i, p) (by simp))
    rw [hcons]
    refine ⟨h3.trans h1, ?_⟩
    rw [h4, h2]
    simp

theorem queries_flatMap_enumFrom (body : Nat → PartitionStat → Run)
    (hq : ∀ i p, queries (body i p).trace = [.diskUsage p.mountpoint]) :
    ∀ (ps : List PartitionStat) (i : Nat),
      queries ((ps.enumFrom i).flatMap fun ip => (body ip.1 ip.2).trace) =
        ps.map fun p => Event.diskUsage p.mountpoint := by
  intro ps
  induction ps with
  | nil => intro i; simp [queries]
  | cons p rest ih =>
    intro i
    simp only [List.enumFrom_cons, List.flatMap_cons, queries_append, hq, ih (i + 1),
      List.map_cons]
    rfl

theorem displayDiskInfo_trace (E : Externals) (ps : List PartitionStat)
    (hp : E.partitions true = .ok ps)
    (hsafe : ∀ ip ∈ ps.enum, (displayDiskInfoBody E ip.1 ip.2).fault = none) :
    displayDiskInfo E = Run.emit (.partitions true ::
      ps.enum.flatMap fun ip => (displayDiskInfoBody E ip.1 ip.2).trace) := by
  obtain ⟨h1, h2⟩ := loop_trace (displayDiskInfoBody E) (displayDiskInfoLoop E)
    (fun _ => rfl) (fun _ _ _ => rfl) ps 0 hsafe
  simp only [displayDiskInfo, hp, andThen_emit, h1, h2]
  rfl

theorem getDiskSpace_trace (E : Externals) (ps : List PartitionStat)
    (hp : E.partitions true = .ok ps) :
    getDiskSpace E = Run.emit (.partitions true ::
      ps.enum.flatMap fun ip => (getDiskSpaceBody E ip.1 ip.2).trace) := by
  obtain ⟨h1, h2⟩ := loop_trace (getDiskSpaceBody E) (getDiskSpaceLoop E)
    (fun _ => rfl) (fun _ _ _ => rfl) ps 0 (fun ip _ => getDiskSpaceBody_no_fault E ip.1 ip.2)
  simp only [getDiskSpace, hp, andThen_emit, h1, h2]
  rfl

theorem flatMap_congr_mem {α β : Type} (l : List α) (f g : α → List β)
    (h : ∀ a ∈ l, f a = g a) : l.flatMap f = l.flatMap g := by
  induction l with
  | nil => rfl
  | cons a rest ih =>
    simp only [List.flatMap_cons]
    rw [h a (by simp), ih (fun b hb => h b (by simp [hb]))]

theorem mixedExternals_wellTyped : mixedExternals.WellTyped := by
  constructor
  · intro m h
    simp only [mixedExternals, Except.ok.injEq] at h
    subst h
    decide
  · intro i path u h
    simp only [mixedExternals] at h
    split at h
    · simp only [Except.ok.injEq] at h
      subst h
      decide
    · cases h

theorem degenerateExternals_wellTyped : degenerateExternals.WellTyped := by
  constructor
  · intro m h
    simp only [degenerateExternals, Except.ok.injEq] at h
    subst h
    decide
  · intro i path u h
    simp only [degenerateExternals, Except.ok.injEq] at h
    subst h
    decide

theorem mixedExternals_plot (ip : Nat × PartitionStat) (u : UsageStat)
    (h : mixedExternals.diskUsage ip.1 ip.2.mountpoint = .ok u) :
    ∃ g, mixedExternals.plot [u.usedPercent] 10 = some g := by
  simp only [mixedExternals] at h
  split at h
  · simp only [Except.ok.injEq] at h
    subst h
    exact ⟨"graph", by decide⟩
  · cases h

/-! ## Claims about the disk listings -/

/-- C6 fails as stated: with two partitions whose usage queries both succeed and
report an infinite percentage, `displayDiskInfo` panics in `asciigraph.Plot` after the
`Used`/`Total` line of the first partition, and the second partition is never
queried. -/
theorem disk_listing_plot_panic_aborts :
    degenerateExternals.WellTyped ∧
    degenerateExternals.partitions true = .ok [{ mountpoint := "/a" }, { mountpoint := "/b" }] ∧
    displayDiskInfo degenerateExternals =
      { trace := [.partitions true, .diskUsage "/a",
          .print "\n\x1b[1;31mDisk Usage (/a)\x1b[0m\n",
          .print "Used: 1.0 KB, Total: 2.0 KB\n"], fault := some .plotPanic } ∧
    queries (displayDiskInfo degenerateExternals).trace =
      [.partitions true, .diskUsage "/a"] :=
  ⟨degenerateExternals_wellTyped, rfl, by decide, by decide⟩

/-- C6 as amended: when the provider returns the partition list `ps`, a failing usage
query yields the query and exactly one error line and both loops go on with the next
partition; `getDiskSpace` is the partition query followed, for each partition in list
order, by the events of the loop body for that partition alone, so every partition is
queried exactly once whatever the outcomes before it, and a succeeding one yields its
display; `displayDiskInfo` is so as well when `asciigraph.Plot` returns for the
percentage of each succeeding partition, and a panic of `Plot` in the display of a
partition ends the run after its `Used`/`Total` line. -/
theorem disk_listing_failure_isolation (E : Externals) (ps : List PartitionStat)
    (hp : E.partitions true = .ok ps) :
    (∀ i (p : PartitionStat) rest err, E.diskUsage i p.mountpoint = .error err →
      displayDiskInfoLoop E i (p :: rest) =
        { trace := [.diskUsage p.mountpoint,
            .print ("Error fetching disk usage for " ++ p.mountpoint ++ ": " ++ err ++ "\n")]
            ++ (displayDiskInfoLoop E (i + 1) rest).trace,
          fault := (displayDiskInfoLoop E (i + 1) rest).fault } ∧
      getDiskSpaceLoop E i (p :: rest) =
        { trace := [.diskUsage p.mountpoint,
            .print ("Error getting disk space usage: " ++ err ++ "\n")]
            ++ (getDiskSpaceLoop E (i + 1) rest).trace,
          fault := (getDiskSpaceLoop E (i + 1) rest).fault }) ∧
    (getDiskSpace E = Run.emit (.partitions true ::
        ps.enum.flatMap fun ip => (getDiskSpaceBody E ip.1 ip.2).trace) ∧
      queries (getDiskSpace E).trace =
        .partitions true :: ps.map (fun p => Event.diskUsage p.mountpoint) ∧
      ∀ i p,
        (∀ err, E.diskUsage i p.mountpoint = .error err →
          getDiskSpaceBody E i p = Run.emit [.diskUsage p.mountpoint,
            .print ("Error getting disk space usage: " ++ err ++ "\n")]) ∧
        (∀ u, E.diskUsage i p.mountpoint = .ok u →
          getDiskSpaceBody E i p = Run.emit [.diskUsage p.mountpoint,
            .print ("Disk: " ++ p.mountpoint ++ "\n"),
            .colorPrint .cyan ("Total Space: " ++ sprintfFixed 2 (gigabytes u.total) ++ " GB\n"),
            .colorPrint .green ("Free Space: " ++ sprintfFixed 2 (gigabytes u.free) ++ " GB\n"),
            .colorPrint .red ("Used Space: " ++ sprintfFixed 2 (gigabytes u.used) ++ " GB\n"),
            .print "\n"])) ∧
    (E.WellTyped →
      (∀ ip ∈ ps.enum, ∀ u, E.diskUsage ip.1 ip.2.mountpoint = .ok u →
        ∃ graph, E.plot [u.usedPercent] 10 = some graph) →
      displayDiskInfo E = Run.emit (.partitions true ::
        ps.enum.flatMap fun ip => (displayDiskInfoBody E ip.1 ip.2).trace) ∧
      queries (displayDiskInfo E).trace =
        .partitions true :: ps.map (fun p => Event.diskUsage p.mountpoint)) ∧
    (∀ i (p : PartitionStat),
      (∀ err, E.diskUsage i p.mountpoint = .error err →
        displayDiskInfoBody E i p = Run.emit [.diskUsage p.mountpoint,
          .print ("Error fetching disk usage for " ++ p.mountpoint ++ ": " ++ err ++ "\n")]) ∧
      (∀ u, E.WellTyped → E.diskUsage i p.mountpoint = .ok u →
        ∃ su st, formatBytes u.used = some su ∧ formatBytes u.total = some st ∧
          (∀ graph, E.plot [u.usedPercent] 10 = some graph →
            displayDiskInfoBody E i p = Run.emit [.diskUsage p.mountpoint,
              .print ("\n" ++ "\x1b[1;31m" ++ ("Disk Usage (" ++ p.mountpoint ++ ")")
                ++ "\x1b[0m\n"),
              .print ("Used: " ++ su ++ ", Total: " ++ st ++ "\n"),
              .print ("\x1b[92m" ++ graph ++ "\x1b[0m\n")]) ∧
          (E.plot [u.usedPercent] 10 = none → ∀ rest,
            displayDiskInfoLoop E i (p :: rest) = Run.mk [.diskUsage p.mountpoint,
              .print ("\n" ++ "\x1b[1;31m" ++ ("Disk Usage (" ++ p.mountpoint ++ ")")
                ++ "\x1b[0m\n"),
              .print ("Used: " ++ su ++ ", Total: " ++ st ++ "\n")] (some .plotPanic)))) := by
  have hg := getDiskSpace_trace E ps hp
  have hc : ∀ t, queries (Event.partitions true :: t) = Event.partitions true :: queries t :=
    fun t => by simp [queries, Event.isQuery]
  refine ⟨fun i p rest err h => ⟨?_, ?_⟩, ⟨hg, ?_, fun i p =>
    ⟨fun err h => getDiskSpaceBody_error E i p err h,
      fun u h => getDiskSpaceBody_ok E i p u h⟩⟩, fun hw hplot => ?_, fun i p =>
    ⟨fun err h => displayDiskInfoBody_error E i p err h, fun u hw h => ?_⟩⟩
  · simp only [displayDiskInfoLoop, displayDiskInfoBody_error E i p err h, andThen_emit]
  · simp only [getDiskSpaceLoop, getDiskSpaceBody_error E i p err h, andThen_emit]
  · have hq : queries (ps.enum.flatMap fun ip => (getDiskSpaceBody E ip.1 ip.2).trace) =
        ps.map fun p => Event.diskUsage p.mountpoint :=
      queries_flatMap_enumFrom _ (getDiskSpaceBody_queries E) ps 0
    rw [hg]
    simp only [Run.emit]
    rw [hc, hq]
  · have hsafe : ∀ ip ∈ ps.enum, (displayDiskInfoBody E ip.1 ip.2).fault = none := by
      intro ip hip
      cases h : E.diskUsage ip.1 ip.2.mountpoint with
      | error err => rw [displayDiskInfoBody_error E ip.1 ip.2 err h]; rfl
      | ok u =>
        obtain ⟨hu, ht⟩ := hw.2 ip.1 ip.2.mountpoint u h
        obtain ⟨su, st, _, _, hb⟩ := displayDiskInfoBody_ok E ip.1 ip.2 u h hu ht
        obtain ⟨g, hgr⟩ := hplot ip hip u h
        rw [hb, hgr]
        rfl
    have hd := displayDiskInfo_trace E ps hp hsafe
    refine ⟨hd, ?_⟩
    have hq : queries (ps.enum.flatMap fun ip => (displayDiskInfoBody E ip.1 ip.2).trace) =
        ps.map fun p => Event.diskUsage p.mountpoint :=
      queries_flatMap_enumFrom _ (displayDiskInfoBody_queries E) ps 0
    rw [hd]
    simp only [Run.emit]
    rw [hc, hq]
  · obtain ⟨hu, ht⟩ := hw.2 i p.mountpoint u h
    obtain ⟨su, st, h1, h2, hb⟩ := displayDiskInfoBody_ok E i p u h hu ht
    refine ⟨su, st, h1, h2, fun g hgr => ?_, fun hnone rest => ?_⟩
    · rw [hb, hgr]
    · simp only [displayDiskInfoLoop]
      rw [hb, hnone]
      exact andThen_fault _ _ Fault.plotPanic rfl

/-- Witness of the amended C6: a first partition that is read and shown and a second
one that is not read, in both listings. -/
theorem disk_listing_failure_isolation_witness :
    mixedExternals.partitions true = .ok [{ mountpoint := "/" }, { mountpoint := "/mnt" }] ∧
    mixedExternals.WellTyped ∧
    displayDiskInfo mixedExternals = Run.emit [.partitions true,
      .diskUsage "/",
      .print "\n\x1b[1;31mDisk Usage (/)\x1b[0m\n",
      .print "Used: 372.6 GB, Total: 465.8 GB\n",
      .print "\x1b[92mgraph\x1b[0m\n",
      .diskUsage "/mnt",
      .print "Error fetching disk usage for /mnt: permission denied\n"] ∧
    getDiskSpace mixedExternals = Run.emit [.partitions true,
      .diskUsage "/",
      .print "Disk: /\n",
      .colorPrint .cyan "Total Space: 465.76 GB\n",
      .colorPrint .green "Free Space: 93.13 GB\n",
      .colorPrint .red "Used Space: 372.63 GB\n",
      .print "\n",
      .diskUsage "/mnt",
      .print "Error getting disk space usage: permission denied\n"] :=
  ⟨rfl, mixedExternals_wellTyped,
    ((disk_listing_failure_isolation mixedExternals _ rfl).2.2.1 mixedExternals_wellTyped
      (fun ip _ u h => mixedExternals_plot ip u h)).1.trans (by decide),
    ((disk_listing_failure_isolation mixedExternals _ rfl).2.1.1).trans (by decide)⟩

/-- C7 fails as stated: with one partition whose usage query fails, both listings
write an error line. -/
theorem disk_listing_all_failing_prints_errors :
    displayDiskInfo unreadableExternals = Run.emit [.partitions true, .diskUsage "/mnt",
      .print "Error fetching disk usage for /mnt: permission denied\n"] ∧
    getDiskSpace unreadableExternals = Run.emit [.partitions true, .diskUsage "/mnt",
      .print "Error getting disk space usage: permission denied\n"] := by
  constructor <;> decide

/-- C7 as amended: when the partition list `ps` is returned and every usage query made
for it fails, neither listing panics or shows a usage section; the output is exactly
one error line per partition, in list order, and it is empty when `ps` is empty. -/
theorem disk_listing_zero_accessible (E : Externals) (ps : List PartitionStat)
    (msg : Nat → String → String) (hp : E.partitions true = .ok ps)
    (hfail : ∀ ip ∈ ps.enum, E.diskUsage ip.1 ip.2.mountpoint = .error (msg ip.1 ip.2.mountpoint)) :
    displayDiskInfo E = Run.emit (.partitions true :: ps.enum.flatMap fun ip =>
      [.diskUsage ip.2.mountpoint,
        .print ("Error fetching disk usage for " ++ ip.2.mountpoint ++ ": "
          ++ msg ip.1 ip.2.mountpoint ++ "\n")]) ∧
    getDiskSpace E = Run.emit (.partitions true :: ps.enum.flatMap fun ip =>
      [.diskUsage ip.2.mountpoint,
        .print ("Error getting disk space usage: " ++ msg ip.1 ip.2.mountpoint ++ "\n")]) ∧
    (ps = [] → displayDiskInfo E = Run.emit [.partitions true] ∧
      getDiskSpace E = Run.emit [.partitions true]) := by
  have hd : displayDiskInfo E = Run.emit (.partitions true :: ps.enum.flatMap fun ip =>
      [.diskUsage ip.2.mountpoint,
        .print ("Error fetching disk usage for " ++ ip.2.mountpoint ++ ": "
          ++ msg ip.1 ip.2.mountpoint ++ "\n")]) := by
    rw [displayDiskInfo_trace E ps hp (fun ip hip => by
      rw [displayDiskInfoBody_error E ip.1 ip.2 _ (hfail ip hip)]
      rfl)]
    congr 2
    exact flatMap_congr_mem _ _ _ (fun ip hip => by
      rw [displayDiskInfoBody_error E ip.1 ip.2 _ (hfail ip hip)]
      rfl)
  have hg : getDiskSpace E = Run.emit (.partitions true :: ps.enum.flatMap fun ip =>
      [.diskUsage ip.2.mountpoint,
        .print ("Error getting disk space usage: " ++ msg ip.1 ip.2.mountpoint ++ "\n")]) := by
    rw [getDiskSpace_trace E ps hp]
    congr 2
    exact flatMap_congr_mem _ _ _ (fun ip hip => by
      rw [getDiskSpaceBody_error E ip.1 ip.2 _ (hfail ip hip)]
      rfl)
  refine ⟨hd, hg, fun h => ?_⟩
  subst h
  exact ⟨hd, hg⟩

/-- Witness of the amended C7 at a provider with one unreadable partition. -/
theorem disk_listing_zero_accessible_witness :
    unreadableExternals.partitions true = .ok [{ mountpoint := "/mnt" }] ∧
    (∀ ip ∈ List.enum [({ mountpoint := "/mnt" } : PartitionStat)],
      unreadableExternals.diskUsage ip.1 ip.2.mountpoint = .error "permission denied") ∧
    outputs (displayDiskInfo unreadableExternals).trace =
      [.print "Error fetching disk usage for /mnt: permission denied\n"] ∧
    outputs (getDiskSpace unreadableExternals).trace =
      [.print "Error getting disk space usage: permission denied\n"] :=
  ⟨rfl, fun _ _ => rfl,
    by
      rw [(disk_listing_zero_accessible unreadableExternals [{ mountpoint := "/mnt" }]
        (fun _ _ => "permission denied") rfl (fun _ _ => rfl)).1]
      decide,
    by
      rw [(disk_listing_zero_accessible unreadableExternals [{ mountpoint := "/mnt" }]
        (fun _ _ => "permission denied") rfl (fun _ _ => rfl)).2.1]
      decide⟩

/-! ## The CPU watcher -/

theorem getCpuUsage_queries (E : Externals) (i : Nat) :
    queries (getCpuUsage E i).trace = [.cpuPercent 0 false] := by
  unfold getCpuUsage
  split
  · simp [Run.emit, queries, Event.isQuery]
  · split <;> simp [Run.emit, queries, Event.isQuery]

theorem getCpuUsage_error (E : Externals) (i : Nat) (err : String)
    (h : E.cpuPercent i 0 false = .error err) :
    getCpuUsage E i = Run.emit [.cpuPercent 0 false,
      .print ("Error getting CPU usage: " ++ err ++ "\n")] := by
  simp [getCpuUsage, h]

theorem getCpuUsage_value (E : Externals) (i : Nat) (v : F64) (vs : List F64)
    (h : E.cpuPercent i 0 false = .ok (v :: vs)) :
    getCpuUsage E i = Run.emit [.cpuPercent 0 false,
      .colorPrint .cyan ("CPU Usage: " ++ sprintfFixed 2 v ++ "%\n")] := by
  simp [getCpuUsage, h]

theorem getCpuUsage_empty (E : Externals) (i : Nat) (h : E.cpuPercent i 0 false = .ok []) :
    getCpuUsage E i = { trace := [.cpuPercent 0 false], fault := some .indexOutOfRange } := by
  simp [getCpuUsage, h]

theorem getCpuUsage_no_fault (E : Externals) (i : Nat) (h : E.cpuPercent i 0 false ≠ .ok []) :
    (getCpuUsage E i).fault = none ∧ (outputs (getCpuUsage E i).trace).length = 1 := by
  cases hq : E.cpuPercent i 0 false with
  | error err => rw [getCpuUsage_error E i err hq]; exact ⟨rfl, rfl⟩
  | ok vs =>
    cases vs with
    | nil => exact absurd hq h
    | cons v rest => rw [getCpuUsage_value E i v rest hq]; exact ⟨rfl, rfl⟩

theorem watchStep_tick (E : Externals) (s : WatchState) (hr : s.phase = .running)
    (hn : s.fault = none) :
    watchStep E s .tick =
      WatchState.mk (if (getCpuUsage E s.calls).fault = none then .running else .stopped)
        s.doneClosed (s.calls + 1) (s.trace ++ (getCpuUsage E s.calls).trace)
        (getCpuUsage E s.calls).fault := by
  simp [watchStep, hr, hn]

theorem watch_no_tick (E : Externals) : ∀ (inputs : List Input) (s : WatchState),
    (∀ x ∈ inputs, x ≠ Input.tick ∧ x ≠ Input.cutTick) →
    (inputs.foldl (watchStep E) s).trace = s.trace ∧
      (inputs.foldl (watchStep E) s).calls = s.calls := by
  intro inputs
  induction inputs with
  | nil => intro s _; exact ⟨rfl, rfl⟩
  | cons x rest ih =>
    intro s h
    have hx := h x (by simp)
    obtain ⟨h1, h2⟩ := ih (watchStep E s x) (fun y hy => h y (by simp [hy]))
    simp only [List.foldl_cons]
    rw [h1, h2]
    cases x with
    | tick => exact absurd rfl hx.1
    | cutTick => exact absurd rfl hx.2
    | signal =>
      simp only [watchStep]
      split <;> exact ⟨rfl, rfl⟩
    | done =>
      simp only [watchStep]
      split <;> exact ⟨rfl, rfl⟩

theorem watchStep_queries (E : Externals) (s : WatchState) (x : Input) :
    (queries (watchStep E s x).trace).length - (queries s.trace).length =
        (watchStep E s x).calls - s.calls ∧
      (queries s.trace).length ≤ (queries (watchStep E s x).trace).length ∧
      s.calls ≤ (watchStep E s x).calls ∧
      (watchStep E s x).calls ≤ s.calls + ((if x = Input.tick then 1 else 0) +
        (if x = Input.cutTick then 1 else 0)) := by
  cases x with
  | tick =>
    simp only [watchStep]
    split
    · simp [queries_append, getCpuUsage_queries]
    · simp
  | cutTick =>
    simp only [watchStep]
    split
    · simp [queries_append, queries, Event.isQuery]
    · simp
  | signal =>
    simp only [watchStep]
    split <;> simp
  | done =>
    simp only [watchStep]
    split <;> simp

theorem watch_queries (E : Externals) : ∀ (inputs : List Input) (s : WatchState),
    (queries s.trace).length = s.calls →
    (queries (inputs.foldl (watchStep E) s).trace).length = (inputs.foldl (watchStep E) s).calls ∧
      (inputs.foldl (watchStep E) s).calls ≤
        s.calls + (inputs.count Input.tick + inputs.count Input.cutTick) := by
  intro inputs
  induction inputs with
  | nil => intro s h; exact ⟨h, by simp⟩
  | cons x rest ih =>
    intro s h
    obtain ⟨h1, h2, h3, h4⟩ := watchStep_queries E s x
    obtain ⟨h5, h6⟩ := ih (watchStep E s x) (by omega)
    simp only [List.foldl_cons]
    refine ⟨h5, ?_⟩
    rw [List.count_cons, List.count_cons]
    have e1 : (if (x == Input.tick) = true then 1 else 0) = (if x = Input.tick then 1 else 0) := by
      by_cases hx : x = Input.tick <;> simp [hx]
    have e2 : (if (x == Input.cutTick) = true then 1 else 0) =
        (if x = Input.cutTick then 1 else 0) := by
      by_cases hx : x = Input.cutTick <;> simp [hx]
    omega

theorem watchStep_leaves (E : Externals) (s : WatchState) (x : Input)
    (hr : s.phase = .running) (hn : s.fault = none)
    (h : (watchStep E s x).phase ≠ .running) :
    (s.doneClosed = true ∧ (x = .done ∨ x = .cutTick)) ∨
      (x = .tick ∧ E.cpuPercent s.calls 0 false = .ok []) := by
  cases x with
  | tick =>
    refine Or.inr ⟨rfl, ?_⟩
    by_contra hq
    apply h
    rw [watchStep_tick E s hr hn]
    simp [(getCpuUsage_no_fault E s.calls hq).1]
  | signal =>
    exfalso
    apply h
    simp only [watchStep]
    split <;> exact hr
  | done =>
    refine Or.inl ⟨?_, Or.inl rfl⟩
    by_contra hd
    apply h
    simp [watchStep, hd, hr]
  | cutTick =>
    refine Or.inl ⟨?_, Or.inr rfl⟩
    by_contra hd
    apply h
    simp [watchStep, hd, hr]

theorem watch_ticks (E : Externals) : ∀ (n : Nat) (s : WatchState),
    s.phase = .running → s.fault = none →
    (∀ i, i < n → E.cpuPercent (s.calls + i) 0 false ≠ .ok []) →
    ((List.replicate n Input.tick).foldl (watchStep E) s).phase = .running ∧
    ((List.replicate n Input.tick).foldl (watchStep E) s).fault = none ∧
    ((List.replicate n Input.tick).foldl (watchStep E) s).calls = s.calls + n ∧
    queries ((List.replicate n Input.tick).foldl (watchStep E) s).trace =
      queries s.trace ++ List.replicate n (.cpuPercent 0 false) ∧
    (outputs ((List.replicate n Input.tick).foldl (watchStep E) s).trace).length =
      (outputs s.trace).length + n := by
  intro n
  induction n with
  | zero => intro s hr hn _; simp [hr, hn]
  | succ n ih =>
    intro s hr hn hq
    obtain ⟨hf, ho⟩ := getCpuUsage_no_fault E s.calls (by simpa using hq 0 (by omega))
    have hstep := watchStep_tick E s hr hn
    rw [hf] at hstep
    simp only [if_true] at hstep
    obtain ⟨i1, i2, i3, i4, i5⟩ := ih (watchStep E s .tick) (by rw [hstep]) (by rw [hstep])
      (fun i hi => by
        rw [hstep]
        have := hq (i + 1) (by omega)
        simpa [Nat.add_assoc, Nat.add_comm 1 i] using this)
    simp only [List.replicate_succ, List.foldl_cons]
    refine ⟨i1, i2, ?_, ?_, ?_⟩
    · rw [i3, hstep]
      show s.calls + 1 + n = s.calls + (n + 1)
      omega
    · rw [i4, hstep]
      show queries (s.trace ++ (getCpuUsage E s.calls).trace) ++ _ = _
      rw [queries_append, getCpuUsage_queries, List.append_assoc]
      rfl
    · rw [i5, hstep]
      show (outputs (s.trace ++ (getCpuUsage E s.calls).trace)).length + n = _
      rw [outputs_append, List.length_append, ho]
      omega

theorem watch_stopped (E : Externals) : ∀ (inputs : List Input) (s : WatchState),
    (s.phase = .running ∨ (s.phase = .stopped ∧ (s.doneClosed = true ∨ s.fault ≠ none))) →
    ((inputs.foldl (watchStep E) s).phase = .running ∨
      ((inputs.foldl (watchStep E) s).phase = .stopped ∧
        ((inputs.foldl (watchStep E) s).doneClosed = true ∨
          (inputs.foldl (watchStep E) s).fault ≠ none))) ∧
    ((inputs.foldl (watchStep E) s).doneClosed = true →
      s.doneClosed = true ∨ Input.signal ∈ inputs) := by
  intro inputs
  induction inputs with
  | nil => intro s hp; exact ⟨hp, fun h => Or.inl h⟩
  | cons x rest ih =>
    intro s hp
    have hstep : ((watchStep E s x).phase = .running ∨
          ((watchStep E s x).phase = .stopped ∧
            ((watchStep E s x).doneClosed = true ∨ (watchStep E s x).fault ≠ none))) ∧
        ((watchStep E s x).doneClosed = true → s.doneClosed = true ∨ x = .signal) := by
      cases x with
      | tick =>
        by_cases hc : s.phase = .running ∧ s.fault = none
        · rw [watchStep_tick E s hc.1 hc.2]
          refine ⟨?_, fun h => Or.inl h⟩
          by_cases hf : (getCpuUsage E s.calls).fault = none
          · left; simp [hf]
          · right; simp [hf]
        · have e : watchStep E s .tick = s := by simp only [watchStep, hc, if_false]
          rw [e]
          exact ⟨hp, fun h => Or.inl h⟩
      | signal =>
        by_cases hn : s.fault = none
        · have e : watchStep E s .signal = { s with doneClosed := true } := by
            simp [watchStep, hn]
          rw [e]
          refine ⟨?_, fun _ => Or.inr rfl⟩
          rcases hp with hr | ⟨hs, _⟩
          · exact Or.inl hr
          · exact Or.inr ⟨hs, Or.inl rfl⟩
        · have e : watchStep E s .signal = s := by simp only [watchStep, hn, if_false]
          rw [e]
          exact ⟨hp, fun h => Or.inl h⟩
      | done =>
        by_cases hcond : s.phase = .running ∧ s.doneClosed = true ∧ s.fault = none
        · have e : watchStep E s .done = { s with phase := .stopped } := by
            simp [watchStep, hcond.1, hcond.2.1, hcond.2.2]
          rw [e]
          exact ⟨Or.inr ⟨rfl, Or.inl hcond.2.1⟩, fun h => Or.inl h⟩
        · have e : watchStep E s .done = s := by simp only [watchStep, hcond, if_false]
          rw [e]
          exact ⟨hp, fun h => Or.inl h⟩
      | cutTick =>
        by_cases hcond : s.phase = .running ∧ s.doneClosed = true ∧ s.fault = none
        · have e : watchStep E s .cutTick = WatchState.mk .stopped s.doneClosed (s.calls + 1)
              (s.trace ++ [.cpuPercent 0 false]) s.fault := by
            simp [watchStep, hcond.1, hcond.2.1, hcond.2.2]
          rw [e]
          exact ⟨Or.inr ⟨rfl, Or.inl hcond.2.1⟩, fun h => Or.inl h⟩
        · have e : watchStep E s .cutTick = s := by simp only [watchStep, hcond, if_false]
          rw [e]
          exact ⟨hp, fun h => Or.inl h⟩
    obtain ⟨s1, s2⟩ := hstep
    obtain ⟨i1, i2⟩ := ih (watchStep E s x) s1
    simp only [List.foldl_cons, List.mem_cons]
    refine ⟨i1, fun h => ?_⟩
    rcases i2 h with h' | h'
    · rcases s2 h' with h'' | h''
      · exact Or.inl h''
      · exact Or.inr (Or.inl h''.symm)
    · exact Or.inr (Or.inr h')

/-! ## Claims about the CPU watcher -/

/-- C8 fails as stated: when the signal arrives before the first tick and the
goroutine then takes the case `<-done`, the run has printed the prompt only and has
made no CPU query. -/
theorem runCpuUsage_no_initial_query :
    runCpuUsage mixedExternals [.signal, .done] =
      { phase := .stopped, doneClosed := true, calls := 0,
        trace := [.print "Press Ctrl+C to exit...\n"], fault := none } ∧
    queries (runCpuUsage mixedExternals [.signal, .done]).trace = [] := by
  constructor <;> decide

/-- C8 as amended: when the subcommand starts, `runCpuUsage` has printed the prompt and
made no CPU query, and a run without a tick has made none; a tick handled while the
poller runs appends exactly the events of one call of `getCpuUsage`, which are one
query `cpu.Percent(0, false)` followed by its display (the error line on a failure,
the usage line on a success that carries a value), so the first query-and-display is
that of the first tick; a run makes as many queries as calls and no more calls than
ticks. -/
theorem runCpuUsage_queries_on_ticks (E : Externals) (inputs : List Input) :
    (runCpuUsage E []).phase = .running ∧
    (runCpuUsage E []).trace = [.print "Press Ctrl+C to exit...\n"] ∧
    ((∀ x ∈ inputs, x ≠ Input.tick ∧ x ≠ Input.cutTick) →
      (runCpuUsage E inputs).trace = [.print "Press Ctrl+C to exit...\n"]) ∧
    (∀ s : WatchState, s.phase = .running → s.fault = none →
      (watchStep E s .tick).trace = s.trace ++ (getCpuUsage E s.calls).trace ∧
      (watchStep E s .tick).calls = s.calls + 1) ∧
    (∀ i : Nat,
      queries (getCpuUsage E i).trace = [.cpuPercent 0 false] ∧
      (∀ err, E.cpuPercent i 0 false = .error err →
        getCpuUsage E i = Run.emit [.cpuPercent 0 false,
          .print ("Error getting CPU usage: " ++ err ++ "\n")]) ∧
      (∀ v vs, E.cpuPercent i 0 false = .ok (v :: vs) →
        getCpuUsage E i = Run.emit [.cpuPercent 0 false,
          .colorPrint .cyan ("CPU Usage: " ++ sprintfFixed 2 v ++ "%\n")])) ∧
    (runCpuUsage E [.tick]).trace =
      .print "Press Ctrl+C to exit...\n" :: (getCpuUsage E 0).trace ∧
    (queries (runCpuUsage E inputs).trace).length = (runCpuUsage E inputs).calls ∧
    (runCpuUsage E inputs).calls ≤ inputs.count Input.tick + inputs.count Input.cutTick := by
  refine ⟨rfl, rfl, fun h => (watch_no_tick E inputs watchStart h).1, fun s hr hn => ?_,
    fun i => ⟨getCpuUsage_queries E i, fun err h => getCpuUsage_error E i err h,
      fun v vs h => getCpuUsage_value E i v vs h⟩, ?_, ?_⟩
  · rw [watchStep_tick E s hr hn]
    exact ⟨rfl, rfl⟩
  · show (watchStep E watchStart .tick).trace = _
    rw [watchStep_tick E watchStart rfl rfl]
    rfl
  · have := watch_queries E inputs watchStart (by decide)
    simpa [runCpuUsage, watchStart] using this

/-- Witness of the amended C8: no tick, and one tick. -/
theorem runCpuUsage_queries_on_ticks_witness :
    (∀ x ∈ [Input.signal, Input.done], x ≠ Input.tick ∧ x ≠ Input.cutTick) ∧
    (runCpuUsage mixedExternals [.signal, .done]).trace =
      [.print "Press Ctrl+C to exit...\n"] ∧
    (runCpuUsage mixedExternals [.tick]).trace =
      [.print "Press Ctrl+C to exit...\n", .cpuPercent 0 false,
        .colorPrint .cyan "CPU Usage: 12.50%\n"] :=
  ⟨by decide,
    (runCpuUsage_queries_on_ticks mixedExternals [.signal, .done]).2.2.1 (by decide),
    ((runCpuUsage_queries_on_ticks mixedExternals []).2.2.2.2.2.1).trans (by decide)⟩

/-- C9 fails as stated: with a provider whose CPU query succeeds with an empty slice,
the first tick makes its query, panics at `cpuInfo[0]` and writes nothing; the poller
has left `running` although `done` is not closed. -/
theorem cpu_watch_empty_success_panics :
    degenerateExternals.cpuPercent 0 0 false = .ok [] ∧
    runCpuUsage degenerateExternals [.tick] =
      { phase := .stopped, doneClosed := false, calls := 1,
        trace := [.print "Press Ctrl+C to exit...\n", .cpuPercent 0 false],
        fault := some .indexOutOfRange } ∧
    outputs (runCpuUsage degenerateExternals [.tick]).trace =
      [.print "Press Ctrl+C to exit...\n"] := by
  refine ⟨rfl, by decide, by decide⟩

/-- C9 as amended: a tick that the polling loop handles to its end makes exactly one
query `cpu.Percent(0, false)`; on a provider error it writes exactly the error line,
on a success that carries a value exactly the usage line, and in both cases the poller
stays `running`; on a success with an empty slice it panics at `cpuInfo[0]` after the
query and writes nothing. The poller leaves `running` only with `done` closed (by the
case `<-done`, or by the exit of the process during a tick) or by that panic; so after
any number of ticks none of which is an empty success it is still running, with one
query and one write for each, and a poller stopped without a panic has seen the
signal. -/
theorem cpu_watch_tick (E : Externals) :
    (∀ s : WatchState, s.phase = .running → s.fault = none →
      (∀ err, E.cpuPercent s.calls 0 false = .error err →
        watchStep E s .tick = WatchState.mk .running s.doneClosed (s.calls + 1)
          (s.trace ++ [.cpuPercent 0 false,
            .print ("Error getting CPU usage: " ++ err ++ "\n")]) none) ∧
      (∀ v vs, E.cpuPercent s.calls 0 false = .ok (v :: vs) →
        watchStep E s .tick = WatchState.mk .running s.doneClosed (s.calls + 1)
          (s.trace ++ [.cpuPercent 0 false,
            .colorPrint .cyan ("CPU Usage: " ++ sprintfFixed 2 v ++ "%\n")]) none) ∧
      (E.cpuPercent s.calls 0 false = .ok [] →
        watchStep E s .tick = WatchState.mk .stopped s.doneClosed (s.calls + 1)
          (s.trace ++ [.cpuPercent 0 false]) (some .indexOutOfRange))) ∧
    (∀ (s : WatchState) (x : Input), s.phase = .running → s.fault = none →
      (watchStep E s x).phase ≠ .running →
      (s.doneClosed = true ∧ (x = .done ∨ x = .cutTick)) ∨
        (x = .tick ∧ E.cpuPercent s.calls 0 false = .ok [])) ∧
    (∀ n : Nat, (∀ i, i < n → E.cpuPercent i 0 false ≠ .ok []) →
      (runCpuUsage E (List.replicate n .tick)).phase = .running ∧
      (runCpuUsage E (List.replicate n .tick)).fault = none ∧
      queries (runCpuUsage E (List.replicate n .tick)).trace =
        List.replicate n (.cpuPercent 0 false) ∧
      (outputs (runCpuUsage E (List.replicate n .tick)).trace).length = n + 1) ∧
    (∀ inputs : List Input,
      (runCpuUsage E inputs).phase = .running ∨
        ((runCpuUsage E inputs).phase = .stopped ∧
          ((runCpuUsage E inputs).fault ≠ none ∨
            ((runCpuUsage E inputs).doneClosed = true ∧ Input.signal ∈ inputs)))) := by
  refine ⟨fun s hr hn => ⟨fun err h => ?_, fun v vs h => ?_, fun h => ?_⟩,
    fun s x hr hn h => watchStep_leaves E s x hr hn h, fun n hq => ?_, fun inputs => ?_⟩
  · rw [watchStep_tick E s hr hn, getCpuUsage_error E s.calls err h]
    rfl
  · rw [watchStep_tick E s hr hn, getCpuUsage_value E s.calls v vs h]
    rfl
  · rw [watchStep_tick E s hr hn, getCpuUsage_empty E s.calls h]
    rfl
  · obtain ⟨h1, h2, _, h4, h5⟩ := watch_ticks E n watchStart rfl rfl (fun i hi => by
      have := hq i hi
      simpa [watchStart] using this)
    refine ⟨h1, h2, ?_, ?_⟩
    · simpa [runCpuUsage, watchStart, queries, Event.isQuery] using h4
    · have : (outputs watchStart.trace).length = 1 := by decide
      simp only [runCpuUsage]
      omega
  · obtain ⟨h1, h2⟩ := watch_stopped E inputs watchStart (Or.inl rfl)
    rcases h1 with hr | ⟨hs, hd | hf⟩
    · exact Or.inl hr
    · refine Or.inr ⟨hs, Or.inr ⟨hd, ?_⟩⟩
      rcases h2 hd with h | h
      · cases h
      · exact h
    · exact Or.inr ⟨hs, Or.inl hf⟩

/-- Witness of the amended C9: three ticks, the second of which fails. -/
theorem cpu_watch_tick_witness :
    (∀ i, i < 3 → mixedExternals.cpuPercent i 0 false ≠ .ok []) ∧
    (runCpuUsage mixedExternals (List.replicate 3 .tick)).phase = .running ∧
    (runCpuUsage mixedExternals (List.replicate 3 .tick)).trace =
      [.print "Press Ctrl+C to exit...\n",
        .cpuPercent 0 false, .colorPrint .cyan "CPU Usage: 12.50%\n",
        .cpuPercent 0 false, .print "Error getting CPU usage: no data\n",
        .cpuPercent 0 false, .colorPrint .cyan "CPU Usage: 12.50%\n"] :=
  ⟨fun i _ => by simp only [mixedExternals]; split <;> simp,
    ((cpu_watch_tick mixedExternals).2.2.1 3
      (fun i _ => by simp only [mixedExternals]; split <;> simp)).1,
    by decide⟩

/-! ## Claims about `displayGraph` -/

theorem andThen_not_index (r k : Run) (hr : r.fault ≠ some .indexOutOfRange)
    (hk : k.fault ≠ some .indexOutOfRange) : (r.andThen k).fault ≠ some .indexOutOfRange := by
  unfold Run.andThen
  split
  · exact hk
  · exact hr

theorem displayDiskInfoBody_not_index (E : Externals) (hw : E.WellTyped) (i : Nat)
    (p : PartitionStat) : (displayDiskInfoBody E i p).fault ≠ some .indexOutOfRange := by
  cases h : E.diskUsage i p.mountpoint with
  | error err =>
    rw [displayDiskInfoBody_error E i p err h]
    simp [Run.emit]
  | ok u =>
    obtain ⟨hu, ht⟩ := hw.2 i p.mountpoint u h
    obtain ⟨su, st, _, _, hcall⟩ := displayUsageGraph_call E.plot
      ("Disk Usage (" ++ p.mountpoint ++ ")") u.usedPercent "\x1b[1;31m" u.used u.total hu ht
    simp only [displayDiskInfoBody, h, hcall, andThen_emit]
    intro hc
    have := (displayGraph_fault _ _ _ _ _).1 hc
    simp at this

theorem displayDiskInfoLoop_not_index (E : Externals) (hw : E.WellTyped) :
    ∀ (ps : List PartitionStat) (i : Nat),
      (displayDiskInfoLoop E i ps).fault ≠ some .indexOutOfRange := by
  intro ps
  induction ps with
  | nil => intro i; simp [displayDiskInfoLoop, Run.emit]
  | cons p rest ih =>
    intro i
    exact andThen_not_index _ _ (displayDiskInfoBody_not_index E hw i p) (ih (i + 1))

/-- C10: `displayGraph` indexes `extraInfo[0]` and `extraInfo[1]` whenever `extraInfo`
is not empty, so it ends in an index-out-of-range panic exactly when there is one
extra string (after the title, before `asciigraph.Plot` is called), and its indexing
is safe exactly when the number of extra strings is `0` or at least `2`; the call in
`displayCPUInfo` passes no extra string, the calls in `displayMemoryInfo` and
`displayDiskInfo` pass exactly two, and no run of the dispatcher ends in an
index-out-of-range panic. -/
theorem displayGraph_index_safety :
    (∀ plot title data color extraInfo,
      (displayGraph plot title data color extraInfo).fault ≠ some .indexOutOfRange ↔
        (extraInfo.length = 0 ∨ 2 ≤ extraInfo.length)) ∧
    (∀ plot title data color x,
      displayGraph plot title data color [x] =
        { trace := [.print ("\n" ++ color ++ title ++ "\x1b[0m\n")],
          fault := some .indexOutOfRange }) ∧
    (∀ (E : Externals) cpuUsage, E.cpuPercent 0 second true = .ok cpuUsage →
      displayCPUInfo E = (Run.emit [.cpuPercent second true]).andThen
        (displayGraph E.plot "CPU Usage" cpuUsage "\x1b[1;34m" [])) ∧
    (∀ (E : Externals) m, E.WellTyped → E.virtualMemory = .ok m →
      ∃ u t, formatBytes m.used = some u ∧ formatBytes m.total = some t ∧
        displayMemoryInfo E = (Run.emit [.virtualMemory]).andThen
          (displayGraph E.plot "Memory Usage" [m.usedPercent] "\x1b[1;32m" [u, t])) ∧
    (∀ (E : Externals) i (p : PartitionStat) usage, E.WellTyped →
      E.diskUsage i p.mountpoint = .ok usage →
      ∃ u t, formatBytes usage.used = some u ∧ formatBytes usage.total = some t ∧
        displayDiskInfoBody E i p = (Run.emit [.diskUsage p.mountpoint]).andThen
          (displayGraph E.plot ("Disk Usage (" ++ p.mountpoint ++ ")") [usage.usedPercent]
            "\x1b[1;31m" [u, t])) ∧
    (∀ (E : Externals) selectedInfo, E.WellTyped →
      (displaySystemInfo E selectedInfo).fault ≠ some .indexOutOfRange) := by
  refine ⟨fun plot title data color extraInfo => ?_, fun plot title data color x => ?_,
    fun E cpuUsage h => ?_, fun E m hw h => ?_, fun E i p usage hw h => ?_,
    fun E selectedInfo hw => ?_⟩
  · rw [Ne, displayGraph_fault]
    omega
  · simp [displayGraph, displayGraphHead, Run.andThen]
  · simp [displayCPUInfo, h]
  · obtain ⟨hu, ht⟩ := hw.1 m h
    obtain ⟨u, t, h1, h2, hcall⟩ := displayUsageGraph_call E.plot "Memory Usage" m.usedPercent
      "\x1b[1;32m" m.used m.total hu ht
    exact ⟨u, t, h1, h2, by simp only [displayMemoryInfo, h, hcall]⟩
  · obtain ⟨hu, ht⟩ := hw.2 i p.mountpoint usage h
    obtain ⟨u, t, h1, h2, hcall⟩ := displayUsageGraph_call E.plot
      ("Disk Usage (" ++ p.mountpoint ++ ")") usage.usedPercent "\x1b[1;31m"
      usage.used usage.total hu ht
    exact ⟨u, t, h1, h2, by simp only [displayDiskInfoBody, h, hcall]⟩
  · have hemit : ∀ es, (Run.emit es).fault ≠ some Fault.indexOutOfRange := fun es => by
      simp [Run.emit]
    unfold displaySystemInfo
    split
    · unfold displayCPUInfo
      split
      · exact hemit _
      · refine andThen_not_index _ _ (hemit _) (fun hc => ?_)
        have := (displayGraph_fault _ _ _ _ _).1 hc
        simp at this
    · split
      · unfold displayMemoryInfo
        split
        · exact hemit _
        · rename_i m hm
          obtain ⟨hu, ht⟩ := hw.1 m hm
          obtain ⟨u, t, _, _, hcall⟩ := displayUsageGraph_call E.plot "Memory Usage"
            m.usedPercent "\x1b[1;32m" m.used m.total hu ht
          rw [hcall]
          refine andThen_not_index _ _ (hemit _) (fun hc => ?_)
          have := (displayGraph_fault _ _ _ _ _).1 hc
          simp at this
      · split
        · unfold displayDiskInfo
          split
          · exact hemit _
          · rename_i ps hps
            exact andThen_not_index _ _ (hemit _) (displayDiskInfoLoop_not_index E hw ps 0)
        · exact hemit _

/-- Witness of C10: the three modes of the dispatcher on two sample providers, one of
which makes `asciigraph.Plot` panic, and a call with one extra string. -/
theorem displayGraph_index_safety_witness :
    mixedExternals.WellTyped ∧ degenerateExternals.WellTyped ∧
    (displaySystemInfo mixedExternals "cpu").fault = none ∧
    (displaySystemInfo mixedExternals "memory").fault = none ∧
    (displaySystemInfo mixedExternals "disk").fault = none ∧
    (displaySystemInfo degenerateExternals "cpu").fault = some .plotPanic ∧
    (displaySystemInfo degenerateExternals "memory").fault ≠ some .indexOutOfRange ∧
    (displayGraph mixedExternals.plot "t" [] "" ["a"]).fault = some .indexOutOfRange :=
  ⟨mixedExternals_wellTyped, degenerateExternals_wellTyped, by decide, by decide, by decide,
    by decide,
    displayGraph_index_safety.2.2.2.2.2 degenerateExternals "memory" degenerateExternals_wellTyped,
    by decide⟩

end SysInfo
